import Mathlib

def daysInMonth (y m : Nat) : Nat :=
  if m = 2 then (if y % 4 = 0 ∧ (y % 100 ≠ 0 ∨ y % 400 = 0) then 29 else 28)
  else if m = 4 ∨ m = 6 ∨ m = 9 ∨ m = 11 then 30 else 31

def dby (yoe : Nat) : Nat := 365 * yoe + yoe / 4 - yoe / 100

def doeToYoe (doe : Nat) : Nat :=
  (doe - doe / 1460 + doe / 36524 - doe / 146096) / 365

theorem doeToYoe_le (doe : Nat) (h : doe ≤ 146096) : doeToYoe doe ≤ 399 := by
  simp only [doeToYoe]
  omega

set_option maxHeartbeats 4000000 in
theorem doeToYoe_eq_iff (a doe : Nat) (ha : a ≤ 399) (hdoe : doe ≤ 146096) :
    doeToYoe doe = a ↔ (dby a ≤ doe ∧
      (doe ≤ dby a + 364 ∨ (doe = dby a + 365 ∧ (a + 1) % 4 = 0 ∧
        ((a + 1) % 100 ≠ 0 ∨ (a + 1) % 400 = 0)))) := by
  simp only [doeToYoe, dby]
  interval_cases a <;> omega

theorem doeToYoe_of_dby (yoe doy : Nat) (h1 : yoe ≤ 399)
    (h2 : doy ≤ 364 ∨ (doy = 365 ∧ (yoe + 1) % 4 = 0 ∧
      ((yoe + 1) % 100 ≠ 0 ∨ (yoe + 1) % 400 = 0))) :
    doeToYoe (dby yoe + doy) = yoe := by
  have hdoe : dby yoe + doy ≤ 146096 := by
    simp only [dby]; omega
  rw [doeToYoe_eq_iff yoe (dby yoe + doy) h1 hdoe]
  omega

/-- Day count from 0000-03-01 (the internal epoch of the civil-calendar
algorithms) to the given proleptic-Gregorian date. -/
def sdays (y m d : Nat) : Nat :=
  let yAdj := if m ≤ 2 then y - 1 else y
  let yoe := yAdj % 400
  let mp := if m ≤ 2 then m + 9 else m - 3
  let doy := (153 * mp + 2) / 5 + d - 1
  yAdj / 400 * 146097 + (dby yoe + doy)

/-- Inverse of `sdays`: civil date of a day count (Hinnant's
`civil_from_days`, the algorithm behind `datetime.date.fromordinal`). -/
def sdaysToDate (n : Nat) : Nat × Nat × Nat :=
  let doe := n % 146097
  let yoe := doeToYoe doe
  let doy := doe - dby yoe
  let mp := (5 * doy + 2) / 153
  let d := doy - (153 * mp + 2) / 5 + 1
  let m := if mp < 10 then mp + 3 else mp - 9
  let y := yoe + n / 146097 * 400 + (if m ≤ 2 then 1 else 0)
  (y, m, d)

theorem sdays_sdaysToDate (n : Nat) :
    sdays (sdaysToDate n).1 (sdaysToDate n).2.1 (sdaysToDate n).2.2 = n := by
  have hdoe : n % 146097 ≤ 146096 := by omega
  have ha : doeToYoe (n % 146097) ≤ 399 := doeToYoe_le _ hdoe
  have hwin := (doeToYoe_eq_iff (doeToYoe (n % 146097)) (n % 146097) ha hdoe).mp rfl
  have hsplit : n = n / 146097 * 146097 + n % 146097 := by omega
  simp only [sdays, sdaysToDate]
  simp only [dby] at hwin ⊢
  generalize hdoeEq : n % 146097 = doe at hdoe ha hwin hsplit ⊢
  generalize heraEq : n / 146097 = era at hsplit ⊢
  generalize hyoeEq : doeToYoe doe = yoe at ha hwin ⊢
  generalize hmpEq : (5 * (doe - (365 * yoe + yoe / 4 - yoe / 100)) + 2) / 153 = mp
  have hmp11 : mp ≤ 11 := by omega
  by_cases hmp : mp < 10
  · simp only [if_pos hmp]
    have hne : ¬ (mp + 3 ≤ 2) := by omega
    simp only [if_neg hne, Nat.add_sub_cancel]
    have e1 : (yoe + era * 400 + 0) / 400 = era := by omega
    have e2 : (yoe + era * 400 + 0) % 400 = yoe := by omega
    rw [e1, e2]
    omega
  · simp only [if_neg hmp]
    have hle : mp - 9 ≤ 2 := by omega
    have h99 : mp - 9 + 9 = mp := by omega
    simp only [if_pos hle, h99]
    have e1 : yoe + era * 400 + 1 - 1 = yoe + era * 400 := by omega
    rw [e1]
    have e2 : (yoe + era * 400) / 400 = era := by omega
    have e3 : (yoe + era * 400) % 400 = yoe := by omega
    rw [e2, e3]
    omega

def ValidYMD (y m d : Nat) : Prop :=
  1 ≤ y ∧ 1 ≤ m ∧ m ≤ 12 ∧ 1 ≤ d ∧ d ≤ daysInMonth y m

instance (y m d : Nat) : Decidable (ValidYMD y m d) := by
  unfold ValidYMD; infer_instance

set_option maxHeartbeats 1600000 in
theorem sdaysToDate_sdays (y m d : Nat) (h : ValidYMD y m d) :
    sdaysToDate (sdays y m d) = (y, m, d) := by
  obtain ⟨hy, hm1, hm2, hd1, hd2⟩ := h
  have hdim : d ≤ 31 ∧ (m = 2 → d ≤ 29) ∧
      ((m = 2 ∧ ¬(y % 4 = 0 ∧ (y % 100 ≠ 0 ∨ y % 400 = 0))) → d ≤ 28) ∧
      ((m = 4 ∨ m = 6 ∨ m = 9 ∨ m = 11) → d ≤ 30) := by
    simp only [daysInMonth] at hd2
    split_ifs at hd2 <;> omega
  clear hd2
  simp only [sdays, sdaysToDate]
  by_cases hm : m ≤ 2
  · simp only [if_pos hm]
    have hle : dby ((y - 1) % 400) + ((153 * (m + 9) + 2) / 5 + d - 1) ≤ 146096 := by
      simp only [dby]; omega
    have hmodr : ((y - 1) / 400 * 146097 +
        (dby ((y - 1) % 400) + ((153 * (m + 9) + 2) / 5 + d - 1))) % 146097 =
        dby ((y - 1) % 400) + ((153 * (m + 9) + 2) / 5 + d - 1) := by
      omega
    have hdivr : ((y - 1) / 400 * 146097 +
        (dby ((y - 1) % 400) + ((153 * (m + 9) + 2) / 5 + d - 1))) / 146097 =
        (y - 1) / 400 := by
      omega
    rw [hmodr, hdivr]
    have hkey : doeToYoe (dby ((y - 1) % 400) + ((153 * (m + 9) + 2) / 5 + d - 1)) =
        (y - 1) % 400 := by
      apply doeToYoe_of_dby _ _ (by omega)
      omega
    rw [hkey]
    clear hkey hmodr hdivr hle
    simp only [dby, Prod.mk.injEq]
    generalize hyoe2 : (y - 1) % 400 = yoe
    generalize hera2 : (y - 1) / 400 = era
    interval_cases m <;> split_ifs <;> omega
  · simp only [if_neg hm]
    have hle : dby (y % 400) + ((153 * (m - 3) + 2) / 5 + d - 1) ≤ 146096 := by
      simp only [dby]; omega
    have hmodr : (y / 400 * 146097 +
        (dby (y % 400) + ((153 * (m - 3) + 2) / 5 + d - 1))) % 146097 =
        dby (y % 400) + ((153 * (m - 3) + 2) / 5 + d - 1) := by
      omega
    have hdivr : (y / 400 * 146097 +
        (dby (y % 400) + ((153 * (m - 3) + 2) / 5 + d - 1))) / 146097 =
        y / 400 := by
      omega
    rw [hmodr, hdivr]
    have hkey : doeToYoe (dby (y % 400) + ((153 * (m - 3) + 2) / 5 + d - 1)) =
        y % 400 := by
      apply doeToYoe_of_dby _ _ (by omega)
      omega
    rw [hkey]
    clear hkey hmodr hdivr hle
    simp only [dby, Prod.mk.injEq]
    generalize hyoe2 : y % 400 = yoe
    generalize hera2 : y / 400 = era
    interval_cases m <;> split_ifs <;> omega

theorem sdaysToDate_valid (n : Nat) :
    1 ≤ (sdaysToDate n).2.1 ∧ (sdaysToDate n).2.1 ≤ 12 ∧
    1 ≤ (sdaysToDate n).2.2 ∧
    (sdaysToDate n).2.2 ≤ daysInMonth (sdaysToDate n).1 (sdaysToDate n).2.1 ∧
    (306 ≤ n → 1 ≤ (sdaysToDate n).1) := by
  have hdoe : n % 146097 ≤ 146096 := by omega
  have ha : doeToYoe (n % 146097) ≤ 399 := doeToYoe_le _ hdoe
  have hwin := (doeToYoe_eq_iff (doeToYoe (n % 146097)) (n % 146097) ha hdoe).mp rfl
  simp only [sdaysToDate, daysInMonth]
  simp only [dby] at hwin ⊢
  split_ifs <;> omega

structure PyDateTime where
  year : Nat
  month : Nat
  day : Nat
  hour : Nat
  minute : Nat
  second : Nat
  micro : Nat
  off : Option Int
deriving Repr, DecidableEq

def PyDateTime.Valid (t : PyDateTime) : Prop :=
  t.year ≤ 9999 ∧ ValidYMD t.year t.month t.day ∧
  t.hour ≤ 23 ∧ t.minute ≤ 59 ∧ t.second ≤ 59 ∧ t.micro ≤ 999999 ∧
  (∀ o ∈ t.off, -86400 < o ∧ o < 86400)

instance (t : PyDateTime) : Decidable t.Valid := by
  unfold PyDateTime.Valid
  exact instDecidableAnd

/-- Seconds since local midnight. -/
def PyDateTime.todSec (t : PyDateTime) : Nat :=
  t.hour * 3600 + t.minute * 60 + t.second

/-- Civil (wall-clock) seconds since 0000-03-01. -/
def PyDateTime.civilSec (t : PyDateTime) : Nat :=
  sdays t.year t.month t.day * 86400 + t.todSec

/-- The instant denoted by an aware datetime, in whole seconds since the
internal epoch (microseconds excluded; they are an additive refinement). -/
def PyDateTime.instantSec (t : PyDateTime) : Int :=
  (t.civilSec : Int) - t.off.getD 0

/-- `sdays` of 0001-01-01, the smallest ordinal Python accepts. -/
def MINSDAY : Nat := 306
/-- `sdays` of 9999-12-31, the largest ordinal Python accepts. -/
def MAXSDAY : Nat := 3652364

/-- `dt.astimezone(timezone.utc)` for an aware `dt`: shift the civil fields
by the negated UTC offset (performed through to-ordinal/from-ordinal
arithmetic in CPython) and attach UTC. `none` models the
`OverflowError`/`ValueError` CPython raises when the shifted date leaves
the supported ordinal range, or a naive input (which `astimezone` would
interpret via the system timezone; the embedded code never does that). -/
def astimezoneUtc (t : PyDateTime) : Option PyDateTime :=
  match t.off with
  | none => none
  | some o =>
    let n : Int := (t.civilSec : Int) - o
    if (MINSDAY : Int) * 86400 ≤ n ∧ n ≤ (MAXSDAY : Int) * 86400 + 86399 then
      let nn := n.toNat
      let rem := nn % 86400
      some ⟨(sdaysToDate (nn / 86400)).1, (sdaysToDate (nn / 86400)).2.1,
            (sdaysToDate (nn / 86400)).2.2,
            rem / 3600, rem % 3600 / 60, rem % 60, t.micro, some 0⟩
    else none

def digitChar (n : Nat) : Char :=
  match n with
  | 0 => '0' | 1 => '1' | 2 => '2' | 3 => '3' | 4 => '4'
  | 5 => '5' | 6 => '6' | 7 => '7' | 8 => '8' | 9 => '9'
  | _ => '*'

def digitVal? (c : Char) : Option Nat :=
  if '0' ≤ c ∧ c ≤ '9' then some (c.toNat - 48) else none

theorem digitVal?_digitChar (n : Nat) (h : n ≤ 9) :
    digitVal? (digitChar n) = some n := by
  interval_cases n <;> decide

theorem digitChar_ne_Z (n : Nat) : digitChar n ≠ 'Z' := by
  unfold digitChar
  split <;> decide

def pad2 (n : Nat) : List Char := [digitChar (n / 10), digitChar (n % 10)]

def pad4 (n : Nat) : List Char :=
  [digitChar (n / 1000), digitChar (n / 100 % 10),
   digitChar (n / 10 % 10), digitChar (n % 10)]

def formatUtcCanonical (t : PyDateTime) : String :=
  ⟨pad4 t.year ++ '-' :: (pad2 t.month ++ '-' :: (pad2 t.day ++
   'T' :: (pad2 t.hour ++ ':' :: (pad2 t.minute ++ ':' ::
   (pad2 t.second ++ ['Z'])))))⟩

/-- `to_utc_iso_z`: attach the display timezone when naive, convert to UTC,
render with seconds precision and a trailing `Z`. The display timezone
(`get_local_tz()`) is modelled as a fixed offset `tzOff` in seconds;
`none` models the exception path for out-of-range dates. -/
def to_utc_iso_z (t : PyDateTime) (tzOff : Int) : Option String :=
  let t' := if t.off.isNone then { t with off := some tzOff } else t
  (astimezoneUtc t').map formatUtcCanonical

def parse2 (a b : Char) : Option Nat :=
  match digitVal? a, digitVal? b with
  | some x, some y => some (10 * x + y)
  | _, _ => none

def parse4 (a b c d : Char) : Option Nat :=
  match digitVal? a, digitVal? b, digitVal? c, digitVal? d with
  | some x, some y, some z, some w => some (1000 * x + 100 * y + 10 * z + w)
  | _, _, _, _ => none

def mkDT (y mo dy h mi se mic : Nat) (off : Option Int) : Option PyDateTime :=
  if PyDateTime.Valid ⟨y, mo, dy, h, mi, se, mic, off⟩ then
    some ⟨y, mo, dy, h, mi, se, mic, off⟩
  else none

def fromIso (cs : List Char) : Option PyDateTime :=
  match cs with
  | y1 :: y2 :: y3 :: y4 :: '-' :: a1 :: a2 :: '-' :: b1 :: b2 :: rest =>
    (parse4 y1 y2 y3 y4).bind fun y =>
    (parse2 a1 a2).bind fun mo =>
    (parse2 b1 b2).bind fun dy =>
    match rest with
    | [] => mkDT y mo dy 0 0 0 0 none
    | 'T' :: h1 :: h2 :: ':' :: m1 :: m2 :: ':' :: s1 :: s2 :: rest2 =>
      (parse2 h1 h2).bind fun h =>
      (parse2 m1 m2).bind fun mi =>
      (parse2 s1 s2).bind fun se =>
      match rest2 with
      | [] => mkDT y mo dy h mi se 0 none
      | '+' :: o1 :: o2 :: ':' :: o3 :: o4 :: [] =>
        (parse2 o1 o2).bind fun oh =>
        (parse2 o3 o4).bind fun om =>
        mkDT y mo dy h mi se 0 (some ((oh * 3600 + om * 60 : Nat) : Int))
      | '-' :: o1 :: o2 :: ':' :: o3 :: o4 :: [] =>
        (parse2 o1 o2).bind fun oh =>
        (parse2 o3 o4).bind fun om =>
        mkDT y mo dy h mi se 0 (some (-((oh * 3600 + om * 60 : Nat) : Int)))
      | _ => none
    | _ => none
  | _ => none

/-- One step of `value.replace("Z", "+00:00")`. -/
def replZ (c : Char) : List Char :=
  if c = 'Z' then ['+', '0', '0', ':', '0', '0'] else [c]

def parse_canvas_datetime (s : String) : Option PyDateTime :=
  if s.data = [] then none
  else
    match fromIso (s.data.bind replZ) with
    | none => none
    | some t => some (if t.off.isNone then { t with off := some 0 } else t)

theorem replZ_digit (n : Nat) : replZ (digitChar n) = [digitChar n] :=
  if_neg (digitChar_ne_Z n)

theorem parse_format (c : PyDateTime) (hv : c.Valid) (ho : c.off = some 0) :
    parse_canvas_datetime (formatUtcCanonical c) = some { c with micro := 0 } := by
  obtain ⟨y, mo, dy, h, mi, s, mic, off⟩ := c
  simp only at ho
  subst ho
  obtain ⟨hy, ⟨hy1, hm1, hm2, hd1, hd2⟩, hh, hmi, hs, hmic, _⟩ := hv
  dsimp only at hy hy1 hm1 hm2 hd1 hd2 hh hmi hs hmic
  have hdim : daysInMonth y mo ≤ 31 := by
    simp only [daysInMonth]
    split_ifs <;> omega
  unfold parse_canvas_datetime formatUtcCanonical
  simp only [pad4, pad2, String.data]
  simp only [List.cons_append, List.nil_append]
  rw [if_neg (by simp)]
  simp only [List.cons_bind, List.nil_bind, replZ_digit,
    show replZ '-' = ['-'] from rfl, show replZ ':' = [':'] from rfl,
    show replZ 'T' = ['T'] from rfl,
    show replZ 'Z' = ['+', '0', '0', ':', '0', '0'] from rfl]
  simp only [List.cons_append, List.nil_append]
  simp only [fromIso, parse4, parse2]
  rw [digitVal?_digitChar (y / 1000) (by omega),
      digitVal?_digitChar (y / 100 % 10) (by omega),
      digitVal?_digitChar (y / 10 % 10) (by omega),
      digitVal?_digitChar (y % 10) (by omega),
      digitVal?_digitChar (mo / 10) (by omega),
      digitVal?_digitChar (mo % 10) (by omega),
      digitVal?_digitChar (dy / 10) (by omega),
      digitVal?_digitChar (dy % 10) (by omega),
      digitVal?_digitChar (h / 10) (by omega),
      digitVal?_digitChar (h % 10) (by omega),
      digitVal?_digitChar (mi / 10) (by omega),
      digitVal?_digitChar (mi % 10) (by omega),
      digitVal?_digitChar (s / 10) (by omega),
      digitVal?_digitChar (s % 10) (by omega)]
  dsimp only
  rw [show 1000 * (y / 1000) + 100 * (y / 100 % 10) + 10 * (y / 10 % 10) + y % 10 = y
        from by omega,
      show 10 * (mo / 10) + mo % 10 = mo from by omega,
      show 10 * (dy / 10) + dy % 10 = dy from by omega,
      show 10 * (h / 10) + h % 10 = h from by omega,
      show 10 * (mi / 10) + mi % 10 = mi from by omega,
      show 10 * (s / 10) + s % 10 = s from by omega]
  simp only [show digitVal? '0' = some 0 from by decide, Option.some_bind]
  rw [show ((10 * 0 + 0) * 3600 + (10 * 0 + 0) * 60 : Nat) = 0 from rfl]
  rw [show mkDT y mo dy h mi s 0 (some ((0 : Nat) : Int)) =
        mkDT y mo dy h mi s 0 (some (0 : Int)) from by norm_num]
  rw [mkDT, if_pos]
  · simp
  · exact ⟨hy, ⟨hy1, hm1, hm2, hd1, hd2⟩, hh, hmi, hs, by dsimp only; omega,
      by intro o hoo; simp only [Option.mem_def, Option.some.injEq] at hoo; omega⟩

theorem sdaysToDate_year_le (n : Nat) (h : n ≤ MAXSDAY) : (sdaysToDate n).1 ≤ 9999 := by
  have hdoe : n % 146097 ≤ 146096 := by omega
  have ha : doeToYoe (n % 146097) ≤ 399 := doeToYoe_le _ hdoe
  have hwin := (doeToYoe_eq_iff (doeToYoe (n % 146097)) (n % 146097) ha hdoe).mp rfl
  simp only [MAXSDAY] at h
  simp only [sdaysToDate]
  simp only [dby] at hwin ⊢
  split_ifs <;> omega

theorem sdays_range (y m d : Nat) (h : ValidYMD y m d) (hy : y ≤ 9999) :
    MINSDAY ≤ sdays y m d ∧ sdays y m d ≤ MAXSDAY := by
  obtain ⟨hy1, hm1, hm2, hd1, hd2⟩ := h
  have hdim : d ≤ 31 ∧ (m = 2 → d ≤ 29) ∧
      ((m = 4 ∨ m = 6 ∨ m = 9 ∨ m = 11) → d ≤ 30) := by
    simp only [daysInMonth] at hd2
    split_ifs at hd2 <;> omega
  simp only [sdays, dby, MINSDAY, MAXSDAY]
  split_ifs <;> omega

theorem astimezoneUtc_some (t : PyDateTime) (o : Int) (ho : t.off = some o)
    (h1 : (MINSDAY : Int) * 86400 ≤ (t.civilSec : Int) - o)
    (h2 : (t.civilSec : Int) - o ≤ (MAXSDAY : Int) * 86400 + 86399) :
    astimezoneUtc t = some
      ⟨(sdaysToDate (((t.civilSec : Int) - o).toNat / 86400)).1,
       (sdaysToDate (((t.civilSec : Int) - o).toNat / 86400)).2.1,
       (sdaysToDate (((t.civilSec : Int) - o).toNat / 86400)).2.2,
       ((t.civilSec : Int) - o).toNat % 86400 / 3600,
       ((t.civilSec : Int) - o).toNat % 86400 % 3600 / 60,
       ((t.civilSec : Int) - o).toNat % 86400 % 60,
       t.micro, some 0⟩ := by
  simp only [astimezoneUtc, ho]
  rw [if_pos ⟨h1, h2⟩]

theorem civilSec_parts (nn mic : Nat) :
    PyDateTime.civilSec ⟨(sdaysToDate (nn / 86400)).1, (sdaysToDate (nn / 86400)).2.1,
      (sdaysToDate (nn / 86400)).2.2, nn % 86400 / 3600, nn % 86400 % 3600 / 60,
      nn % 86400 % 60, mic, some 0⟩ = nn := by
  simp only [PyDateTime.civilSec, PyDateTime.todSec]
  rw [sdays_sdaysToDate]
  omega

theorem parts_valid (nn mic : Nat) (hlo : MINSDAY ≤ nn / 86400)
    (hhi : nn / 86400 ≤ MAXSDAY) (hmic : mic ≤ 999999) :
    PyDateTime.Valid ⟨(sdaysToDate (nn / 86400)).1, (sdaysToDate (nn / 86400)).2.1,
      (sdaysToDate (nn / 86400)).2.2, nn % 86400 / 3600, nn % 86400 % 3600 / 60,
      nn % 86400 % 60, mic, some 0⟩ := by
  obtain ⟨v1, v2, v3, v4, v5⟩ := sdaysToDate_valid (nn / 86400)
  have hyear := sdaysToDate_year_le (nn / 86400) hhi
  simp only [MINSDAY] at hlo
  refine ⟨hyear, ⟨v5 hlo, v1, v2, v3, v4⟩, by dsimp only; omega,
    by dsimp only; omega, by dsimp only; omega, hmic, ?_⟩
  intro o hoo
  simp only [Option.mem_def, Option.some.injEq] at hoo
  omega

/-- Claim C3: the canonical timestamp functions round-trip.  Part 1: for
every timezone-aware `t` (whose UTC equivalent is representable),
`parse_canvas_datetime (to_utc_iso_z t)` succeeds and denotes the same
instant as `t` truncated to whole seconds (the parsed value is
second-precision UTC, so its instant is exactly `t.instantSec`, the
whole-second part of `t`'s instant).  Part 2: rendering a parsed canonical
string reproduces the string, stated for an arbitrary canonical string,
i.e. `formatUtcCanonical c` for a valid second-precision UTC value `c`. -/
theorem canonical_roundtrip :
    (∀ (t : PyDateTime) (tz : Int), t.Valid → t.off ≠ none →
      (MINSDAY : Int) * 86400 ≤ t.instantSec →
      t.instantSec ≤ (MAXSDAY : Int) * 86400 + 86399 →
      ∃ s u, to_utc_iso_z t tz = some s ∧ parse_canvas_datetime s = some u ∧
        u.off = some 0 ∧ u.micro = 0 ∧ u.instantSec = t.instantSec) ∧
    (∀ (c : PyDateTime) (tz : Int), c.Valid → c.off = some 0 → c.micro = 0 →
      (parse_canvas_datetime (formatUtcCanonical c)).bind
          (fun u => to_utc_iso_z u tz) = some (formatUtcCanonical c)) := by
  constructor
  · intro t tz hv hsome h1 h2
    obtain ⟨o, ho⟩ : ∃ o, t.off = some o := by
      cases hoff : t.off
      · exact absurd hoff hsome
      · exact ⟨_, rfl⟩
    have hn : t.instantSec = (t.civilSec : Int) - o := by
      simp only [PyDateTime.instantSec, ho, Option.getD_some]
    rw [hn] at h1 h2
    have hast := astimezoneUtc_some t o ho h1 h2
    have hnn : (((t.civilSec : Int) - o).toNat : Int) = (t.civilSec : Int) - o := by
      omega
    have hdlo : MINSDAY ≤ ((t.civilSec : Int) - o).toNat / 86400 := by
      simp only [MINSDAY] at h1 ⊢
      omega
    have hdhi : ((t.civilSec : Int) - o).toNat / 86400 ≤ MAXSDAY := by
      simp only [MAXSDAY] at h2 ⊢
      omega
    have hmic : t.micro ≤ 999999 := hv.2.2.2.2.2.1
    have hvalid := parts_valid (((t.civilSec : Int) - o).toNat) t.micro hdlo hdhi hmic
    have hparse := parse_format _ hvalid rfl
    refine ⟨_, _, ?_, hparse, rfl, rfl, ?_⟩
    · simp only [to_utc_iso_z, ho]
      simp only [Option.isNone_some, Bool.false_eq_true, if_false]
      rw [hast]
      rfl
    · simp only [PyDateTime.instantSec]
      rw [show (⟨(sdaysToDate (((t.civilSec : Int) - o).toNat / 86400)).1,
          (sdaysToDate (((t.civilSec : Int) - o).toNat / 86400)).2.1,
          (sdaysToDate (((t.civilSec : Int) - o).toNat / 86400)).2.2,
          ((t.civilSec : Int) - o).toNat % 86400 / 3600,
          ((t.civilSec : Int) - o).toNat % 86400 % 3600 / 60,
          ((t.civilSec : Int) - o).toNat % 86400 % 60,
          0, some 0⟩ : PyDateTime).civilSec =
          ((t.civilSec : Int) - o).toNat from civilSec_parts _ 0]
      simp only [ho, Option.getD_some]
      omega
  · intro c tz hv ho hm
    obtain ⟨y, mo, dy, h, mi, s, mic, off⟩ := c
    simp only at ho hm
    subst ho
    subst hm
    rw [parse_format _ hv rfl]
    obtain ⟨hy, hymd, hh, hmi2, hs2, _, _⟩ := hv
    dsimp only at hy hymd hh hmi2 hs2
    have hr := sdays_range y mo dy hymd hy
    simp only [MINSDAY, MAXSDAY] at hr
    have h1 : (MINSDAY : Int) * 86400 ≤
        (((⟨y, mo, dy, h, mi, s, 0, some 0⟩ : PyDateTime).civilSec : Int)) - 0 := by
      simp only [PyDateTime.civilSec, PyDateTime.todSec, MINSDAY]
      omega
    have h2 : (((⟨y, mo, dy, h, mi, s, 0, some 0⟩ : PyDateTime).civilSec : Int)) - 0 ≤
        (MAXSDAY : Int) * 86400 + 86399 := by
      simp only [PyDateTime.civilSec, PyDateTime.todSec, MAXSDAY]
      omega
    have hbind : (some (⟨y, mo, dy, h, mi, s, 0, some 0⟩ : PyDateTime)).bind
        (fun u => to_utc_iso_z u tz) = to_utc_iso_z ⟨y, mo, dy, h, mi, s, 0, some 0⟩ tz := rfl
    rw [hbind]
    simp only [to_utc_iso_z]
    rw [show ((⟨y, mo, dy, h, mi, s, 0, some 0⟩ : PyDateTime).off.isNone) = false from rfl]
    simp only [Bool.false_eq_true, if_false]
    rw [astimezoneUtc_some _ 0 rfl h1 h2]
    simp only [Option.map_some']
    congr 1
    have htoNat : ((((⟨y, mo, dy, h, mi, s, 0, some 0⟩ : PyDateTime).civilSec : Int)) - 0).toNat =
        sdays y mo dy * 86400 + (h * 3600 + mi * 60 + s) := by
      simp only [PyDateTime.civilSec, PyDateTime.todSec]
      omega
    rw [htoNat]
    have hday : (sdays y mo dy * 86400 + (h * 3600 + mi * 60 + s)) / 86400 = sdays y mo dy := by
      omega
    rw [hday, sdaysToDate_sdays y mo dy hymd]
    congr 1
    simp only [PyDateTime.mk.injEq, true_and, and_true]
    omega

theorem canonical_roundtrip_witness :
    (∃ s u, to_utc_iso_z ⟨2025, 10, 1, 9, 29, 30, 500000, some 19800⟩ 0 = some s ∧
        parse_canvas_datetime s = some u ∧ u.off = some 0 ∧ u.micro = 0 ∧
        u.instantSec = (⟨2025, 10, 1, 9, 29, 30, 500000, some 19800⟩ : PyDateTime).instantSec) ∧
    (parse_canvas_datetime (formatUtcCanonical ⟨2025, 12, 20, 23, 59, 0, 0, some 0⟩)).bind
        (fun u => to_utc_iso_z u 0) =
      some (formatUtcCanonical ⟨2025, 12, 20, 23, 59, 0, 0, some 0⟩) :=
  ⟨canonical_roundtrip.1 ⟨2025, 10, 1, 9, 29, 30, 500000, some 19800⟩ 0 (by decide)
      (by decide) (by decide) (by decide),
   canonical_roundtrip.2 ⟨2025, 12, 20, 23, 59, 0, 0, some 0⟩ 0 (by decide) rfl rfl⟩

/-- `datetime.weekday()`: Monday = 0, ..., Sunday = 6. -/
def weekdayOf (t : PyDateTime) : Nat := (sdays t.year t.month t.day + 2) % 7

/-- `week_start_end_local`: attach the display timezone when the reference
is naive, then return (Monday 00:00:00, Sunday 23:59:59) of the
reference's week, computed via `replace` and to-ordinal/from-ordinal day
arithmetic exactly as `datetime - timedelta(days=weekday)` does; `none`
models the exception for dates outside Python's ordinal range. -/
def week_start_end_local (ref : PyDateTime) (tzOff : Int) :
    Option (PyDateTime × PyDateTime) :=
  let r := if ref.off.isNone then { ref with off := some tzOff } else ref
  let sd := sdays r.year r.month r.day
  let w := (sd + 2) % 7
  if MINSDAY + w ≤ sd ∧ sd - w + 6 ≤ MAXSDAY then
    some (⟨(sdaysToDate (sd - w)).1, (sdaysToDate (sd - w)).2.1,
           (sdaysToDate (sd - w)).2.2, 0, 0, 0, 0, r.off⟩,
          ⟨(sdaysToDate (sd - w + 6)).1, (sdaysToDate (sd - w + 6)).2.1,
           (sdaysToDate (sd - w + 6)).2.2, 23, 59, 59, 0, r.off⟩)
  else none

theorem week_window_shape (ref : PyDateTime) (tz : Int)
    (hlo : MINSDAY + 6 ≤ sdays ref.year ref.month ref.day)
    (hhi : sdays ref.year ref.month ref.day + 6 ≤ MAXSDAY) :
    ∃ ws we, week_start_end_local ref tz = some (ws, we) ∧
      weekdayOf ws = 0 ∧ ws.hour = 0 ∧ ws.minute = 0 ∧ ws.second = 0 ∧
      weekdayOf we = 6 ∧ we.hour = 23 ∧ we.minute = 59 ∧ we.second = 59 ∧
      (we.civilSec : Int) - (ws.civilSec : Int) = 6 * 86400 + (23 * 3600 + 59 * 60 + 59) ∧
      sdays ws.year ws.month ws.day =
        sdays ref.year ref.month ref.day - (sdays ref.year ref.month ref.day + 2) % 7 := by
  simp only [week_start_end_local]
  cases hoff : ref.off with
  | none =>
    simp only [hoff, Option.isNone_none, if_true]
    rw [if_pos (by omega)]
    refine ⟨_, _, rfl, ?_, rfl, rfl, rfl, ?_, rfl, rfl, rfl, ?_, ?_⟩
    · simp only [weekdayOf]
      rw [sdays_sdaysToDate]
      omega
    · simp only [weekdayOf]
      rw [sdays_sdaysToDate]
      omega
    · simp only [PyDateTime.civilSec, PyDateTime.todSec]
      rw [sdays_sdaysToDate, sdays_sdaysToDate]
      try dsimp only
      push_cast
      omega
    · try dsimp only
      rw [sdays_sdaysToDate]
  | some o =>
    simp only [hoff, Option.isNone_some, Bool.false_eq_true, if_false]
    rw [if_pos (by omega)]
    refine ⟨_, _, rfl, ?_, rfl, rfl, rfl, ?_, rfl, rfl, rfl, ?_, ?_⟩
    · simp only [weekdayOf]
      rw [sdays_sdaysToDate]
      omega
    · simp only [weekdayOf]
      rw [sdays_sdaysToDate]
      omega
    · simp only [PyDateTime.civilSec, PyDateTime.todSec]
      rw [sdays_sdaysToDate, sdays_sdaysToDate]
      try dsimp only
      push_cast
      omega
    · try dsimp only
      rw [sdays_sdaysToDate]

/-- Claim C4: `week_start_end_local` returns Monday 00:00:00 and Sunday
23:59:59 of the reference's week, with span exactly 6 days 23:59:59, for
any weekday of the reference; a Sunday-23:59 reference keeps the same
week and the next Monday-00:01 reference advances the window by 7 days. -/
theorem week_window_correct :
    (∀ (ref : PyDateTime) (tz : Int),
      MINSDAY + 6 ≤ sdays ref.year ref.month ref.day →
      sdays ref.year ref.month ref.day + 6 ≤ MAXSDAY →
      ∃ ws we, week_start_end_local ref tz = some (ws, we) ∧
        weekdayOf ws = 0 ∧ ws.hour = 0 ∧ ws.minute = 0 ∧ ws.second = 0 ∧
        weekdayOf we = 6 ∧ we.hour = 23 ∧ we.minute = 59 ∧ we.second = 59 ∧
        (we.civilSec : Int) - (ws.civilSec : Int) =
          6 * 86400 + (23 * 3600 + 59 * 60 + 59)) ∧
    (∀ (r1 r2 : PyDateTime) (tz : Int),
      MINSDAY + 6 ≤ sdays r1.year r1.month r1.day →
      sdays r1.year r1.month r1.day + 7 ≤ MAXSDAY →
      weekdayOf r1 = 6 → r1.hour = 23 → r1.minute = 59 →
      sdays r2.year r2.month r2.day = sdays r1.year r1.month r1.day + 1 →
      r2.hour = 0 → r2.minute = 1 →
      ∃ ws1 we1 ws2 we2,
        week_start_end_local r1 tz = some (ws1, we1) ∧
        week_start_end_local r2 tz = some (ws2, we2) ∧
        sdays ws1.year ws1.month ws1.day = sdays r1.year r1.month r1.day - 6 ∧
        sdays ws2.year ws2.month ws2.day = sdays ws1.year ws1.month ws1.day + 7) := by
  constructor
  · intro ref tz hlo hhi
    obtain ⟨ws, we, h1, h2, h3, h4, h5, h6, h7, h8, h9, h10, _⟩ :=
      week_window_shape ref tz hlo hhi
    exact ⟨ws, we, h1, h2, h3, h4, h5, h6, h7, h8, h9, h10⟩
  · intro r1 r2 tz hlo hhi hw hh1 hm1 hnext hh2 hm2
    simp only [weekdayOf] at hw
    obtain ⟨ws1, we1, e1, _, _, _, _, _, _, _, _, _, k1⟩ :=
      week_window_shape r1 tz hlo (by omega)
    obtain ⟨ws2, we2, e2, _, _, _, _, _, _, _, _, _, k2⟩ :=
      week_window_shape r2 tz (by omega) (by omega)
    refine ⟨ws1, we1, ws2, we2, e1, e2, ?_, ?_⟩
    · omega
    · omega

theorem week_window_correct_witness :
    (∃ ws we, week_start_end_local ⟨2025, 10, 15, 14, 30, 0, 0, none⟩ 300 = some (ws, we) ∧
      weekdayOf ws = 0 ∧ ws.hour = 0 ∧ ws.minute = 0 ∧ ws.second = 0 ∧
      weekdayOf we = 6 ∧ we.hour = 23 ∧ we.minute = 59 ∧ we.second = 59 ∧
      (we.civilSec : Int) - (ws.civilSec : Int) =
        6 * 86400 + (23 * 3600 + 59 * 60 + 59)) ∧
    (∃ ws1 we1 ws2 we2,
      week_start_end_local ⟨2025, 10, 19, 23, 59, 0, 0, none⟩ 300 = some (ws1, we1) ∧
      week_start_end_local ⟨2025, 10, 20, 0, 1, 0, 0, none⟩ 300 = some (ws2, we2) ∧
      sdays ws1.year ws1.month ws1.day =
        sdays (PyDateTime.mk 2025 10 19 23 59 0 0 none).year
          (PyDateTime.mk 2025 10 19 23 59 0 0 none).month
          (PyDateTime.mk 2025 10 19 23 59 0 0 none).day - 6 ∧
      sdays ws2.year ws2.month ws2.day = sdays ws1.year ws1.month ws1.day + 7) :=
  ⟨week_window_correct.1 ⟨2025, 10, 15, 14, 30, 0, 0, none⟩ 300 (by decide) (by decide),
   week_window_correct.2 ⟨2025, 10, 19, 23, 59, 0, 0, none⟩ ⟨2025, 10, 20, 0, 1, 0, 0, none⟩
     300 (by decide) (by decide) (by decide) rfl rfl (by decide) rfl rfl⟩

/-- A row of the `courses` table. -/
structure Course where
  id : Int
  name : String
  course_code : Option String
  start_at : Option String
  end_at : Option String
deriving Repr, DecidableEq

/-- A row of the `assignments` table.  Timestamp columns hold canonical
UTC strings in SQLite; the embedding stores the denoted instant (the
`civilSec` value of the UTC datetime).  By the format/parse round trips
proved above, canonical strings and these integers determine each other,
and lexicographic comparison of equal-shape canonical strings (SQL
`BETWEEN`) agrees with integer comparison of the instants. -/
structure Assignment where
  id : Int
  course_id : Int
  name : String
  due_at : Option Int
  week_number : Option Int
  html_url : Option String
  submitted : Bool
  due_reminder_2d_sent : Bool
  due_reminder_1d_sent : Bool
  due_reminder_12h_sent : Bool
deriving Repr, DecidableEq

/-- A row of the `study_plans` table. -/
structure StudyPlan where
  user_id : String
  course_id : Int
  assignment_id : Int
  planned_at_utc : Int
  notes : Option String
  reminder_24h_sent : Bool
  reminder_1h_sent : Bool
  reminder_now_sent : Bool
deriving Repr, DecidableEq

/-- A row of the `user_assignment_status` table. -/
structure UserAssignmentStatus where
  user_id : String
  course_id : Int
  assignment_id : Int
  completed : Bool
  completed_at_utc : Option Int
deriving Repr, DecidableEq

/-- The SQLite database state (tables the verified claims touch). -/
structure DB where
  courses : List Course
  assignments : List Assignment
  study_plans : List StudyPlan
  user_status : List UserAssignmentStatus
deriving Repr, DecidableEq

def spKeyMatch (u : String) (c a : Int) (sp : StudyPlan) : Bool :=
  sp.user_id == u && sp.course_id == c && sp.assignment_id == a

def asgKeyMatch (c a : Int) (x : Assignment) : Bool :=
  x.course_id == c && x.id == a

def uasKeyMatch (u : String) (c a : Int) (r : UserAssignmentStatus) : Bool :=
  r.user_id == u && r.course_id == c && r.assignment_id == a

/-- `upsert_study_plan`: `INSERT ... ON CONFLICT(user_id, course_id,
assignment_id) DO UPDATE SET planned_at_utc=excluded.planned_at_utc,
notes=excluded.notes`.  Note the conflict branch touches only
`planned_at_utc` and `notes`. -/
def upsert_study_plan (u : String) (c a : Int) (planned : Int)
    (notes : Option String) (db : DB) : DB :=
  if db.study_plans.any (spKeyMatch u c a) then
    { db with study_plans := db.study_plans.map (fun sp =>
        if spKeyMatch u c a sp then
          { sp with planned_at_utc := planned, notes := notes }
        else sp) }
  else
    { db with study_plans :=
        db.study_plans ++ [⟨u, c, a, planned, notes, false, false, false⟩] }

/-- `update_study_plan_time`: `UPDATE study_plans SET planned_at_utc = ?,
reminder_24h_sent = 0, reminder_1h_sent = 0, reminder_now_sent = 0 WHERE
user_id = ? AND course_id = ? AND assignment_id = ?`. -/
def update_study_plan_time (u : String) (c a : Int) (newPlanned : Int)
    (db : DB) : DB :=
  { db with study_plans := db.study_plans.map (fun sp =>
      if spKeyMatch u c a sp then
        { sp with planned_at_utc := newPlanned, reminder_24h_sent := false,
                  reminder_1h_sent := false, reminder_now_sent := false }
      else sp) }

/-- `mark_reminder_sent`: `column_map.get(reminder_type)`; unknown types
return with no update. -/
def mark_reminder_sent (u : String) (c a : Int) (reminder_type : String)
    (db : DB) : DB :=
  if reminder_type == "24h" then
    { db with study_plans := db.study_plans.map (fun sp =>
        if spKeyMatch u c a sp then { sp with reminder_24h_sent := true } else sp) }
  else if reminder_type == "1h" then
    { db with study_plans := db.study_plans.map (fun sp =>
        if spKeyMatch u c a sp then { sp with reminder_1h_sent := true } else sp) }
  else if reminder_type == "now" then
    { db with study_plans := db.study_plans.map (fun sp =>
        if spKeyMatch u c a sp then { sp with reminder_now_sent := true } else sp) }
  else db

/-- `mark_due_date_reminder_sent`: same lookup for due-date flags. -/
def mark_due_date_reminder_sent (c a : Int) (reminder_type : String)
    (db : DB) : DB :=
  if reminder_type == "2d" then
    { db with assignments := db.assignments.map (fun x =>
        if asgKeyMatch c a x then { x with due_reminder_2d_sent := true } else x) }
  else if reminder_type == "1d" then
    { db with assignments := db.assignments.map (fun x =>
        if asgKeyMatch c a x then { x with due_reminder_1d_sent := true } else x) }
  else if reminder_type == "12h" then
    { db with assignments := db.assignments.map (fun x =>
        if asgKeyMatch c a x then { x with due_reminder_12h_sent := true } else x) }
  else db

/-- `set_assignment_completed`: upsert into `user_assignment_status`. -/
def set_assignment_completed (u : String) (c a : Int) (completed : Bool)
    (completed_at : Option Int) (db : DB) : DB :=
  if db.user_status.any (uasKeyMatch u c a) then
    { db with user_status := db.user_status.map (fun r =>
        if uasKeyMatch u c a r then
          { r with completed := completed, completed_at_utc := completed_at }
        else r) }
  else
    { db with user_status := db.user_status ++ [⟨u, c, a, completed, completed_at⟩] }

def findAssignment (db : DB) (cid aid : Int) : Option Assignment :=
  db.assignments.find? (asgKeyMatch cid aid)

def findCourse (db : DB) (cid : Int) : Option Course :=
  db.courses.find? (fun c => c.id == cid)

/-- `COALESCE(uas.completed, 0)` through the `LEFT JOIN` on the status
table's primary key. -/
def uasCompleted (db : DB) (u : String) (cid aid : Int) : Bool :=
  match db.user_status.find? (uasKeyMatch u cid aid) with
  | some r => r.completed
  | none => false

/-- A row returned by `get_pending_reminders`. -/
structure WorkReminderRow where
  user_id : String
  course_id : Int
  assignment_id : Int
  planned_at_utc : Int
  assignment_name : String
  due_at : Option Int
  course_code : Option String
  course_name : String
  tag : String
deriving Repr, DecidableEq

/-- One threshold query of `get_pending_reminders`: plans whose
`planned_at_utc` lies `BETWEEN lo AND hi` with the given sent-flag still
0, joined (via the primary keys) with their assignment and course. -/
def pendingFor (db : DB) (lo hi : Int) (flag : StudyPlan → Bool)
    (tag : String) : List WorkReminderRow :=
  db.study_plans.filterMap (fun sp =>
    if lo ≤ sp.planned_at_utc ∧ sp.planned_at_utc ≤ hi ∧ flag sp = false then
      match findAssignment db sp.course_id sp.assignment_id,
            findCourse db sp.course_id with
      | some a, some c =>
        some ⟨sp.user_id, sp.course_id, sp.assignment_id, sp.planned_at_utc,
              a.name, a.due_at, c.course_code, c.name, tag⟩
      | _, _ => none
    else none)

/-- `get_pending_reminders(now_utc)`: the three threshold scans with a
±1-minute window each, tagged `'24h'`, `'1h'`, `'now'`. -/
def get_pending_reminders (now : Int) (db : DB) : List WorkReminderRow :=
  pendingFor db (now + 86400 - 60) (now + 86400 + 60)
    (fun sp => sp.reminder_24h_sent) "24h" ++
  pendingFor db (now + 3600 - 60) (now + 3600 + 60)
    (fun sp => sp.reminder_1h_sent) "1h" ++
  pendingFor db (now - 60) (now + 60)
    (fun sp => sp.reminder_now_sent) "now"

/-- A row returned by `get_pending_due_date_reminders`. -/
structure DueReminderRow where
  assignment_id : Int
  course_id : Int
  assignment_name : String
  due_at : Int
  course_code : Option String
  course_name : String
  tag : String
deriving Repr, DecidableEq

/-- The current display week's `[monday .. sunday]` range in UTC seconds,
as computed by `get_pending_due_date_reminders`: convert `now` to the
display timezone (modelled as the fixed offset `tzOff`), take local
midnight of the current day, subtract `weekday()` days, convert back to
UTC; the end is `6 days 23:59:59` later.  Day number `n` has weekday
`(n + 2) % 7` with Monday = 0 because day 0 of the internal epoch,
0000-03-01, was a Wednesday. -/
def dueWeekWindow (now tzOff : Int) : Int × Int :=
  let localDay := (now + tzOff).fdiv 86400
  let w := (localDay + 2) % 7
  let startUtc := (localDay - w) * 86400 - tzOff
  (startUtc, startUtc + (6 * 86400 + (23 * 3600 + 59 * 60 + 59)))

/-- One threshold query of `get_pending_due_date_reminders`: assignments
whose `due_at` lies in the ±1-minute window and in the current display
week, whose due-reminder flag is still 0, and which the given user has
not completed (`COALESCE(uas.completed, 0) = 0` through the LEFT JOIN). -/
def dueRowFor (db : DB) (user : String) (lo hi ws we : Int)
    (flag : Assignment → Bool) (tag : String) (a : Assignment) :
    Option DueReminderRow :=
  match a.due_at with
  | none => none
  | some d =>
    if (lo ≤ d ∧ d ≤ hi) ∧ (ws ≤ d ∧ d ≤ we) ∧ flag a = false ∧
        uasCompleted db user a.course_id a.id = false then
      match findCourse db a.course_id with
      | some c => some ⟨a.id, a.course_id, a.name, d, c.course_code, c.name, tag⟩
      | none => none
    else none

def duePendingFor (db : DB) (user : String) (lo hi ws we : Int)
    (flag : Assignment → Bool) (tag : String) : List DueReminderRow :=
  db.assignments.filterMap (dueRowFor db user lo hi ws we flag tag)

/-- `get_pending_due_date_reminders(now_utc, user_id)`. -/
def get_pending_due_date_reminders (now : Int) (user : String) (tzOff : Int)
    (db : DB) : List DueReminderRow :=
  let win := dueWeekWindow now tzOff
  duePendingFor db user (now + 2 * 86400 - 60) (now + 2 * 86400 + 60) win.1 win.2
    (fun a => a.due_reminder_2d_sent) "2d" ++
  duePendingFor db user (now + 86400 - 60) (now + 86400 + 60) win.1 win.2
    (fun a => a.due_reminder_1d_sent) "1d" ++
  duePendingFor db user (now + 12 * 3600 - 60) (now + 12 * 3600 + 60) win.1 win.2
    (fun a => a.due_reminder_12h_sent) "12h"

/-- Does this assignment fall due inside `[ws, we]`?  (`a.due_at BETWEEN ?
AND ?` is NULL, hence false, for a NULL `due_at`.) -/
def dueInRange (ws we : Int) (a : Assignment) : Bool :=
  match a.due_at with
  | some d => ws ≤ d && d ≤ we
  | none => false

/-- `check_week_completion(user_id, start_date_local)` after the local → 
UTC conversion of the week bounds: counts assignments due in the week and
those of them this user completed; an empty week short-circuits to
`(True, 0, 0)`. -/
def check_week_completion (user : String) (startUtc : Int) (db : DB) :
    Bool × Nat × Nat :=
  let endUtc := startUtc + (6 * 86400 + (23 * 3600 + 59 * 60 + 59))
  let total := (db.assignments.filter (dueInRange startUtc endUtc)).length
  if total = 0 then (true, 0, 0)
  else
    let completed := (db.assignments.filter (fun a =>
      dueInRange startUtc endUtc a &&
      db.user_status.any (fun r => uasKeyMatch user a.course_id a.id r &&
        r.completed))).length
    (completed == total, total, completed)

/-- The integer (instant) shadow of `to_utc_iso_z`: same timezone
handling and UTC conversion, returning the stored instant rather than its
canonical rendering (the two determine each other by the round-trip
theorems above). -/
def to_utc_sec (t : PyDateTime) (tzOff : Int) : Option Int :=
  let t' := if t.off.isNone then { t with off := some tzOff } else t
  (astimezoneUtc t').map (fun u => (u.civilSec : Int))

/-- `dt.isocalendar().week`: ISO-8601 week number, computed from the
Thursday of the reference's Monday-based week. -/
def isoWeek (t : PyDateTime) : Int :=
  let sd := sdays t.year t.month t.day
  let w := (sd + 2) % 7
  let th := sd + 3 - w
  ((th - sdays (sdaysToDate th).1 1 1) / 7 + 1 : Nat)

/-- An element of the list handed to `upsert_assignments` (a Canvas API
assignment dict after the gateway's filtering). -/
structure CanvasAssignmentRow where
  id : Int
  name : String
  due_at : Option String
  html_url : Option String
  has_submitted_submissions : Bool
deriving Repr, DecidableEq

/-- The `INSERT ... ON CONFLICT(course_id, id) DO UPDATE` statement for
one row, given the precomputed stored due instant and week number: on
conflict all non-flag attributes are overwritten and the three
due-reminder flags are not listed in the SET clause. -/
def applyAssignmentRow (cid : Int) (r : CanvasAssignmentRow)
    (due : Option Int) (week : Option Int) (db : DB) : DB :=
  if db.assignments.any (asgKeyMatch cid r.id) then
    { db with assignments := db.assignments.map (fun x =>
        if asgKeyMatch cid r.id x then
          { x with name := r.name, due_at := due, week_number := week,
                   html_url := r.html_url,
                   submitted := r.has_submitted_submissions }
        else x) }
  else
    { db with assignments := db.assignments ++
        [⟨r.id, cid, r.name, due, week, r.html_url,
          r.has_submitted_submissions, false, false, false⟩] }

/-- `upsert_assignments(assignments, course_id)`: per row, parse the raw
`due_at` (when present) into week number and canonical stored instant,
then insert-or-update; a parse failure raises, aborting the uncommitted
transaction, modelled as `none`. -/
def upsert_assignments (rows : List CanvasAssignmentRow) (cid : Int)
    (tzOff : Int) (db : DB) : Option DB :=
  match rows with
  | [] => some db
  | r :: rest =>
    match r.due_at with
    | none => upsert_assignments rest cid tzOff (applyAssignmentRow cid r none none db)
    | some raw =>
      match parse_canvas_datetime raw with
      | none => none
      | some dt =>
        match to_utc_sec dt tzOff with
        | none => none
        | some ts =>
          upsert_assignments rest cid tzOff
            (applyAssignmentRow cid r (some ts) (some (isoWeek dt)) db)

/-- Claim C10: for any threshold tag outside the recognized sets, both
mark-sent operations return normally and leave the store unchanged. -/
theorem mark_sent_unknown_tag_noop (u : String) (c a : Int) (rt : String)
    (db : DB) (h1 : rt ≠ "24h") (h2 : rt ≠ "1h") (h3 : rt ≠ "now")
    (h4 : rt ≠ "2d") (h5 : rt ≠ "1d") (h6 : rt ≠ "12h") :
    mark_reminder_sent u c a rt db = db ∧
    mark_due_date_reminder_sent c a rt db = db := by
  constructor
  · simp only [mark_reminder_sent, beq_iff_eq, if_neg h1, if_neg h2, if_neg h3]
  · simp only [mark_due_date_reminder_sent, beq_iff_eq, if_neg h4, if_neg h5,
      if_neg h6]

theorem mark_sent_unknown_tag_noop_witness :
    mark_reminder_sent "u" 1 2 "soon"
        ⟨[], [], [⟨"u", 1, 2, 100, none, false, false, false⟩], []⟩ =
      ⟨[], [], [⟨"u", 1, 2, 100, none, false, false, false⟩], []⟩ ∧
    mark_due_date_reminder_sent 1 2 "soon"
        ⟨[], [], [⟨"u", 1, 2, 100, none, false, false, false⟩], []⟩ =
      ⟨[], [], [⟨"u", 1, 2, 100, none, false, false, false⟩], []⟩ :=
  mark_sent_unknown_tag_noop "u" 1 2 "soon" _ (by decide) (by decide) (by decide)
    (by decide) (by decide) (by decide)

/-- Claim C1 counterexample: `upsert_study_plan` on an existing
(user, course, assignment) key does NOT reset the three work-session
reminder flags — a plan whose flags are all set keeps them set while
`planned_at` and `notes` are overwritten. -/
theorem upsert_study_plan_keeps_flags_cex :
    (upsert_study_plan "u" 1 2 200 none
      ⟨[], [], [⟨"u", 1, 2, 100, some "n", true, true, true⟩], []⟩).study_plans =
    [⟨"u", 1, 2, 200, none, true, true, true⟩] := by decide

/-- Claim C1 (amended): `update_study_plan_time` resets all three
work-session reminder flags (even if previously set) while updating
`planned_at`; `upsert_study_plan` on an existing key overwrites
`planned_at` and `notes` but leaves the three flags unchanged. -/
theorem study_plan_reschedule_semantics :
    (∀ (u : String) (c a t : Int) (db : DB) (sp : StudyPlan),
      sp ∈ db.study_plans → spKeyMatch u c a sp = true →
      ({ sp with planned_at_utc := t, reminder_24h_sent := false,
                 reminder_1h_sent := false, reminder_now_sent := false })
        ∈ (update_study_plan_time u c a t db).study_plans) ∧
    (∀ (u : String) (c a t : Int) (notes : Option String) (db : DB) (sp : StudyPlan),
      sp ∈ db.study_plans → spKeyMatch u c a sp = true →
      ({ sp with planned_at_utc := t, notes := notes })
        ∈ (upsert_study_plan u c a t notes db).study_plans) := by
  constructor
  · intro u c a t db sp hmem hk
    simp only [update_study_plan_time]
    have hmap := List.mem_map_of_mem (fun sp =>
      if spKeyMatch u c a sp then
        { sp with planned_at_utc := t, reminder_24h_sent := false,
                  reminder_1h_sent := false, reminder_now_sent := false }
      else sp) hmem
    dsimp only at hmap
    rw [if_pos hk] at hmap
    exact hmap
  · intro u c a t notes db sp hmem hk
    simp only [upsert_study_plan]
    rw [if_pos (List.any_eq_true.mpr ⟨sp, hmem, hk⟩)]
    have hmap := List.mem_map_of_mem (fun sp =>
      if spKeyMatch u c a sp then
        { sp with planned_at_utc := t, notes := notes }
      else sp) hmem
    dsimp only at hmap
    rw [if_pos hk] at hmap
    exact hmap

theorem study_plan_reschedule_semantics_witness :
    (⟨"u", 1, 2, 555, some "n", false, false, false⟩ : StudyPlan)
      ∈ (update_study_plan_time "u" 1 2 555
          ⟨[], [], [⟨"u", 1, 2, 100, some "n", true, true, true⟩], []⟩).study_plans ∧
    (⟨"u", 1, 2, 555, none, true, true, true⟩ : StudyPlan)
      ∈ (upsert_study_plan "u" 1 2 555 none
          ⟨[], [], [⟨"u", 1, 2, 100, some "n", true, true, true⟩], []⟩).study_plans :=
  ⟨study_plan_reschedule_semantics.1 "u" 1 2 555
      ⟨[], [], [⟨"u", 1, 2, 100, some "n", true, true, true⟩], []⟩
      ⟨"u", 1, 2, 100, some "n", true, true, true⟩ (by decide) (by decide),
   study_plan_reschedule_semantics.2 "u" 1 2 555 none
      ⟨[], [], [⟨"u", 1, 2, 100, some "n", true, true, true⟩], []⟩
      ⟨"u", 1, 2, 100, some "n", true, true, true⟩ (by decide) (by decide)⟩

theorem mem_duePendingFor (db : DB) (u : String) (lo hi ws we : Int)
    (flag : Assignment → Bool) (tag : String) (row : DueReminderRow) :
    row ∈ duePendingFor db u lo hi ws we flag tag ↔
    ∃ a ∈ db.assignments, ∃ d c, a.due_at = some d ∧
      findCourse db a.course_id = some c ∧
      (lo ≤ d ∧ d ≤ hi) ∧ (ws ≤ d ∧ d ≤ we) ∧ flag a = false ∧
      uasCompleted db u a.course_id a.id = false ∧
      row = ⟨a.id, a.course_id, a.name, d, c.course_code, c.name, tag⟩ := by
  simp only [duePendingFor, dueRowFor, List.mem_filterMap]
  constructor
  · rintro ⟨a, ha, heq⟩
    cases hdue : a.due_at with
    | none => rw [hdue] at heq; simp at heq
    | some d =>
      rw [hdue] at heq
      dsimp only at heq
      by_cases hcond : (lo ≤ d ∧ d ≤ hi) ∧ (ws ≤ d ∧ d ≤ we) ∧ flag a = false ∧
          uasCompleted db u a.course_id a.id = false
      · rw [if_pos hcond] at heq
        cases hfc : findCourse db a.course_id with
        | none => rw [hfc] at heq; simp at heq
        | some c =>
          rw [hfc] at heq
          dsimp only at heq
          simp only [Option.some.injEq] at heq
          exact ⟨a, ha, d, c, hdue, hfc, hcond.1, hcond.2.1, hcond.2.2.1,
            hcond.2.2.2, heq.symm⟩
      · rw [if_neg hcond] at heq
        simp at heq
  · rintro ⟨a, ha, d, c, hdue, hfc, h1, h2, h3, h4, hrow⟩
    refine ⟨a, ha, ?_⟩
    rw [hdue]
    dsimp only
    rw [if_pos ⟨h1, h2, h3, h4⟩, hfc, hrow]

theorem mem_pendingFor (db : DB) (lo hi : Int) (flag : StudyPlan → Bool)
    (tag : String) (row : WorkReminderRow) :
    row ∈ pendingFor db lo hi flag tag ↔
    ∃ sp ∈ db.study_plans, ∃ a c,
      findAssignment db sp.course_id sp.assignment_id = some a ∧
      findCourse db sp.course_id = some c ∧
      (lo ≤ sp.planned_at_utc ∧ sp.planned_at_utc ≤ hi) ∧ flag sp = false ∧
      row = ⟨sp.user_id, sp.course_id, sp.assignment_id, sp.planned_at_utc,
             a.name, a.due_at, c.course_code, c.name, tag⟩ := by
  simp only [pendingFor, List.mem_filterMap]
  constructor
  · rintro ⟨sp, hsp, heq⟩
    by_cases hcond : lo ≤ sp.planned_at_utc ∧ sp.planned_at_utc ≤ hi ∧
        flag sp = false
    · rw [if_pos hcond] at heq
      cases hfa : findAssignment db sp.course_id sp.assignment_id with
      | none => rw [hfa] at heq; simp at heq
      | some a =>
        cases hfc : findCourse db sp.course_id with
        | none => rw [hfa, hfc] at heq; simp at heq
        | some c =>
          rw [hfa, hfc] at heq
          dsimp only at heq
          simp only [Option.some.injEq] at heq
          exact ⟨sp, hsp, a, c, hfa, hfc, ⟨hcond.1, hcond.2.1⟩, hcond.2.2,
            heq.symm⟩
    · rw [if_neg hcond] at heq
      simp at heq
  · rintro ⟨sp, hsp, a, c, hfa, hfc, ⟨h1, h2⟩, h3, hrow⟩
    refine ⟨sp, hsp, ?_⟩
    rw [if_pos ⟨h1, h2, h3⟩, hfa, hfc]
    dsimp only
    rw [hrow]

theorem uasCompleted_set_true (u : String) (c a : Int) (ts : Option Int)
    (db : DB) :
    uasCompleted (set_assignment_completed u c a true ts db) u c a = true := by
  obtain ⟨cs, asg, sps, uas⟩ := db
  simp only [uasCompleted, set_assignment_completed]
  by_cases h : List.any uas (uasKeyMatch u c a)
  · rw [if_pos h]
    dsimp only
    induction uas with
    | nil => simp at h
    | cons r rest ih =>
      by_cases hr : uasKeyMatch u c a r
      · simp only [List.map_cons, List.find?]
        rw [if_pos hr]
        have hkey : uasKeyMatch u c a
            { r with completed := true, completed_at_utc := ts } = true := by
          simp only [uasKeyMatch] at hr ⊢
          exact hr
        rw [hkey]
      · simp only [List.map_cons, List.find?]
        rw [if_neg hr]
        have hkey : uasKeyMatch u c a r = false := by
          simp only [Bool.not_eq_true] at hr
          exact hr
        rw [hkey]
        apply ih
        simp only [List.any_cons, hkey, Bool.false_or] at h
        exact h
  · rw [if_neg h]
    dsimp only
    rw [List.find?_append]
    have hnone : List.find? (uasKeyMatch u c a) uas = none := by
      rw [List.find?_eq_none]
      intro x hx hpx
      exact h (List.any_eq_true.mpr ⟨x, hx, hpx⟩)
    rw [hnone]
    simp only [Option.none_or]
    have : uasKeyMatch u c a ⟨u, c, a, true, ts⟩ = true := by
      simp [uasKeyMatch]
    simp [List.find?, this]

/-- Claim C8: once a user marks an assignment complete, every subsequent
due-date reminder tick excludes that (user, assignment) pair for all
three thresholds. -/
theorem completed_user_excluded (u : String) (c a : Int) (ts : Option Int)
    (db : DB) (now tz : Int) :
    ∀ row ∈ get_pending_due_date_reminders now u tz
        (set_assignment_completed u c a true ts db),
      ¬(row.course_id = c ∧ row.assignment_id = a) := by
  intro row hrow hconj
  obtain ⟨hc, ha⟩ := hconj
  have hcompl := uasCompleted_set_true u c a ts db
  simp only [get_pending_due_date_reminders, List.mem_append] at hrow
  rcases hrow with (h | h) | h
  all_goals
    rw [mem_duePendingFor] at h
    obtain ⟨x, hx, d, co, hdue, hfc, hwin1, hwin2, hflag, hnotdone, hroweq⟩ := h
    rw [hroweq] at hc ha
    dsimp only at hc ha
    rw [hc] at hnotdone
    rw [ha] at hnotdone
    rw [hcompl] at hnotdone
    simp at hnotdone

/-- Primary-key uniqueness of `study_plans`, as enforced by SQLite. -/
def plansKeyUnique (db : DB) : Prop :=
  db.study_plans.Pairwise (fun s1 s2 =>
    ¬(s1.user_id = s2.user_id ∧ s1.course_id = s2.course_id ∧
      s1.assignment_id = s2.assignment_id))

instance (db : DB) : Decidable (plansKeyUnique db) := by
  unfold plansKeyUnique
  infer_instance

theorem plans_key_eq (db : DB) (h : plansKeyUnique db) {s1 s2 : StudyPlan}
    (h1 : s1 ∈ db.study_plans) (h2 : s2 ∈ db.study_plans)
    (hu : s1.user_id = s2.user_id) (hc : s1.course_id = s2.course_id)
    (ha : s1.assignment_id = s2.assignment_id) : s1 = s2 := by
  by_contra hne
  have hsym : Symmetric (fun s1 s2 : StudyPlan =>
      ¬(s1.user_id = s2.user_id ∧ s1.course_id = s2.course_id ∧
        s1.assignment_id = s2.assignment_id)) := by
    intro x y hxy hk
    exact hxy ⟨hk.1.symm, hk.2.1.symm, hk.2.2.symm⟩
  exact (List.Pairwise.forall hsym h h1 h2 hne) ⟨hu, hc, ha⟩

theorem tag_of_mem_pendingFor (db : DB) (lo hi : Int) (f : StudyPlan → Bool)
    (t : String) (row : WorkReminderRow) (h : row ∈ pendingFor db lo hi f t) :
    row.tag = t := by
  rw [mem_pendingFor] at h
  obtain ⟨sp, _, a, c, _, _, _, _, hroweq⟩ := h
  rw [hroweq]

theorem work_selection_one (db : DB) (lo hi : Int) (flagF : StudyPlan → Bool)
    (tag : String) (sp : StudyPlan) (hUniq : plansKeyUnique db)
    (hsp : sp ∈ db.study_plans) (a : Assignment) (c : Course)
    (hfa : findAssignment db sp.course_id sp.assignment_id = some a)
    (hfc : findCourse db sp.course_id = some c) :
    (∃ row ∈ pendingFor db lo hi flagF tag, row.user_id = sp.user_id ∧
      row.course_id = sp.course_id ∧ row.assignment_id = sp.assignment_id) ↔
    (lo ≤ sp.planned_at_utc ∧ sp.planned_at_utc ≤ hi ∧ flagF sp = false) := by
  constructor
  · rintro ⟨row, hrow, hru, hrc, hra⟩
    rw [mem_pendingFor] at hrow
    obtain ⟨sp', hsp', a', c', hfa', hfc', ⟨h1, h2⟩, h3, hroweq⟩ := hrow
    subst hroweq
    dsimp only at hru hrc hra
    have hspEq : sp' = sp := plans_key_eq db hUniq hsp' hsp hru hrc hra
    subst hspEq
    exact ⟨h1, h2, h3⟩
  · rintro ⟨h1, h2, h3⟩
    exact ⟨_, (mem_pendingFor db lo hi flagF tag _).mpr
      ⟨sp, hsp, a, c, hfa, hfc, ⟨h1, h2⟩, h3, rfl⟩, rfl, rfl, rfl⟩

theorem work_selection_full (db : DB) (now : Int) (sp : StudyPlan)
    (hUniq : plansKeyUnique db) (hsp : sp ∈ db.study_plans)
    (a : Assignment) (c : Course)
    (hfa : findAssignment db sp.course_id sp.assignment_id = some a)
    (hfc : findCourse db sp.course_id = some c) :
    ((∃ row ∈ get_pending_reminders now db, row.user_id = sp.user_id ∧
        row.course_id = sp.course_id ∧ row.assignment_id = sp.assignment_id ∧
        row.tag = "24h") ↔
      (now + 86400 - 60 ≤ sp.planned_at_utc ∧
       sp.planned_at_utc ≤ now + 86400 + 60 ∧
       sp.reminder_24h_sent = false)) ∧
    ((∃ row ∈ get_pending_reminders now db, row.user_id = sp.user_id ∧
        row.course_id = sp.course_id ∧ row.assignment_id = sp.assignment_id ∧
        row.tag = "1h") ↔
      (now + 3600 - 60 ≤ sp.planned_at_utc ∧
       sp.planned_at_utc ≤ now + 3600 + 60 ∧
       sp.reminder_1h_sent = false)) ∧
    ((∃ row ∈ get_pending_reminders now db, row.user_id = sp.user_id ∧
        row.course_id = sp.course_id ∧ row.assignment_id = sp.assignment_id ∧
        row.tag = "now") ↔
      (now - 60 ≤ sp.planned_at_utc ∧ sp.planned_at_utc ≤ now + 60 ∧
       sp.reminder_now_sent = false)) := by
  refine ⟨?_, ?_, ?_⟩
  all_goals constructor
  · rintro ⟨row, hrow, hru, hrc, hra, hrt⟩
    simp only [get_pending_reminders, List.mem_append] at hrow
    rcases hrow with (h | h) | h
    · exact (work_selection_one db _ _ _ _ sp hUniq hsp a c hfa hfc).mp
        ⟨row, h, hru, hrc, hra⟩
    · rw [tag_of_mem_pendingFor _ _ _ _ _ _ h] at hrt
      exact absurd hrt (by decide)
    · rw [tag_of_mem_pendingFor _ _ _ _ _ _ h] at hrt
      exact absurd hrt (by decide)
  · rintro hcond
    obtain ⟨row, hrow, hru, hrc, hra⟩ :=
      (work_selection_one db _ _ _ "24h" sp hUniq hsp a c hfa hfc).mpr hcond
    refine ⟨row, ?_, hru, hrc, hra, tag_of_mem_pendingFor _ _ _ _ _ _ hrow⟩
    simp only [get_pending_reminders, List.mem_append]
    exact Or.inl (Or.inl hrow)
  · rintro ⟨row, hrow, hru, hrc, hra, hrt⟩
    simp only [get_pending_reminders, List.mem_append] at hrow
    rcases hrow with (h | h) | h
    · rw [tag_of_mem_pendingFor _ _ _ _ _ _ h] at hrt
      exact absurd hrt (by decide)
    · exact (work_selection_one db _ _ _ _ sp hUniq hsp a c hfa hfc).mp
        ⟨row, h, hru, hrc, hra⟩
    · rw [tag_of_mem_pendingFor _ _ _ _ _ _ h] at hrt
      exact absurd hrt (by decide)
  · rintro hcond
    obtain ⟨row, hrow, hru, hrc, hra⟩ :=
      (work_selection_one db _ _ _ "1h" sp hUniq hsp a c hfa hfc).mpr hcond
    refine ⟨row, ?_, hru, hrc, hra, tag_of_mem_pendingFor _ _ _ _ _ _ hrow⟩
    simp only [get_pending_reminders, List.mem_append]
    exact Or.inl (Or.inr hrow)
  · rintro ⟨row, hrow, hru, hrc, hra, hrt⟩
    simp only [get_pending_reminders, List.mem_append] at hrow
    rcases hrow with (h | h) | h
    · rw [tag_of_mem_pendingFor _ _ _ _ _ _ h] at hrt
      exact absurd hrt (by decide)
    · rw [tag_of_mem_pendingFor _ _ _ _ _ _ h] at hrt
      exact absurd hrt (by decide)
    · exact (work_selection_one db _ _ _ _ sp hUniq hsp a c hfa hfc).mp
        ⟨row, h, hru, hrc, hra⟩
  · rintro hcond
    obtain ⟨row, hrow, hru, hrc, hra⟩ :=
      (work_selection_one db _ _ _ "now" sp hUniq hsp a c hfa hfc).mpr hcond
    refine ⟨row, ?_, hru, hrc, hra, tag_of_mem_pendingFor _ _ _ _ _ _ hrow⟩
    simp only [get_pending_reminders, List.mem_append]
    exact Or.inr hrow

theorem spKeyMatch_fields {u : String} {c a : Int} {sp : StudyPlan}
    (h : spKeyMatch u c a sp = true) :
    sp.user_id = u ∧ sp.course_id = c ∧ sp.assignment_id = a := by
  simp only [spKeyMatch, Bool.and_eq_true, beq_iff_eq] at h
  exact ⟨h.1.1, h.1.2, h.2⟩

/-- Claim C5: a reminder tick returns a StudyPlan tagged with a threshold
iff its `planned_at` lies within ±1 minute of `now + Δ` and its sent-flag
for that threshold is false; after a reschedule (which resets the flags)
a fresh 24h reminder fires relative to the new time. -/
theorem work_reminder_window_selection :
    (∀ (db : DB) (now : Int) (sp : StudyPlan) (a : Assignment) (c : Course),
      plansKeyUnique db → sp ∈ db.study_plans →
      findAssignment db sp.course_id sp.assignment_id = some a →
      findCourse db sp.course_id = some c →
      ((∃ row ∈ get_pending_reminders now db, row.user_id = sp.user_id ∧
          row.course_id = sp.course_id ∧ row.assignment_id = sp.assignment_id ∧
          row.tag = "24h") ↔
        (now + 86400 - 60 ≤ sp.planned_at_utc ∧
         sp.planned_at_utc ≤ now + 86400 + 60 ∧
         sp.reminder_24h_sent = false)) ∧
      ((∃ row ∈ get_pending_reminders now db, row.user_id = sp.user_id ∧
          row.course_id = sp.course_id ∧ row.assignment_id = sp.assignment_id ∧
          row.tag = "1h") ↔
        (now + 3600 - 60 ≤ sp.planned_at_utc ∧
         sp.planned_at_utc ≤ now + 3600 + 60 ∧
         sp.reminder_1h_sent = false)) ∧
      ((∃ row ∈ get_pending_reminders now db, row.user_id = sp.user_id ∧
          row.course_id = sp.course_id ∧ row.assignment_id = sp.assignment_id ∧
          row.tag = "now") ↔
        (now - 60 ≤ sp.planned_at_utc ∧ sp.planned_at_utc ≤ now + 60 ∧
         sp.reminder_now_sent = false))) ∧
    (∀ (u : String) (c0 a0 tNew : Int) (db : DB) (now : Int) (sp : StudyPlan)
        (a : Assignment) (c : Course),
      plansKeyUnique db → sp ∈ db.study_plans → spKeyMatch u c0 a0 sp = true →
      findAssignment db c0 a0 = some a → findCourse db c0 = some c →
      ((∃ row ∈ get_pending_reminders now (update_study_plan_time u c0 a0 tNew db),
          row.user_id = u ∧ row.course_id = c0 ∧ row.assignment_id = a0 ∧
          row.tag = "24h") ↔
        (now + 86400 - 60 ≤ tNew ∧ tNew ≤ now + 86400 + 60))) := by
  constructor
  · intro db now sp a c hUniq hsp hfa hfc
    exact work_selection_full db now sp hUniq hsp a c hfa hfc
  · intro u c0 a0 tNew db now sp a c hUniq hsp hk hfa hfc
    obtain ⟨he1, he2, he3⟩ := spKeyMatch_fields hk
    have hUniq' : plansKeyUnique (update_study_plan_time u c0 a0 tNew db) := by
      simp only [plansKeyUnique, update_study_plan_time, List.pairwise_map]
      refine List.Pairwise.imp ?_ hUniq
      intro x y hxy hk2
      apply hxy
      by_cases hx : spKeyMatch u c0 a0 x <;> by_cases hy : spKeyMatch u c0 a0 y <;>
        simp only [if_pos, if_neg, hx, hy, if_true, if_false] at hk2 <;>
        exact hk2
    have hmem' :
        ({ sp with planned_at_utc := tNew, reminder_24h_sent := false,
                   reminder_1h_sent := false, reminder_now_sent := false })
          ∈ (update_study_plan_time u c0 a0 tNew db).study_plans := by
      simp only [update_study_plan_time]
      have hmap := List.mem_map_of_mem (fun sp =>
        if spKeyMatch u c0 a0 sp then
          { sp with planned_at_utc := tNew, reminder_24h_sent := false,
                    reminder_1h_sent := false, reminder_now_sent := false }
        else sp) hsp
      dsimp only at hmap
      rw [if_pos hk] at hmap
      exact hmap
    have hfa' : findAssignment (update_study_plan_time u c0 a0 tNew db)
        ({ sp with planned_at_utc := tNew, reminder_24h_sent := false,
                   reminder_1h_sent := false,
                   reminder_now_sent := false } : StudyPlan).course_id
        ({ sp with planned_at_utc := tNew, reminder_24h_sent := false,
                   reminder_1h_sent := false,
                   reminder_now_sent := false } : StudyPlan).assignment_id = some a := by
      dsimp only
      rw [he2, he3]
      exact hfa
    have hfc' : findCourse (update_study_plan_time u c0 a0 tNew db)
        ({ sp with planned_at_utc := tNew, reminder_24h_sent := false,
                   reminder_1h_sent := false,
                   reminder_now_sent := false } : StudyPlan).course_id = some c := by
      dsimp only
      rw [he2]
      exact hfc
    have hiff := (work_selection_full (update_study_plan_time u c0 a0 tNew db)
      now _ hUniq' hmem' a c hfa' hfc').1
    dsimp only at hiff
    rw [he1, he2, he3] at hiff
    rw [hiff]
    constructor
    · rintro ⟨h1, h2, _⟩
      exact ⟨h1, h2⟩
    · rintro ⟨h1, h2⟩
      exact ⟨h1, h2, rfl⟩

theorem work_reminder_window_selection_witness :
    (((∃ row ∈ get_pending_reminders 63922503630
        ⟨[⟨1, "C", none, none, none⟩],
         [⟨10, 1, "A", none, none, none, false, false, false, false⟩],
         [⟨"u", 1, 10, 63922590000, none, false, false, false⟩], []⟩,
        row.user_id = "u" ∧ row.course_id = 1 ∧ row.assignment_id = 10 ∧
        row.tag = "24h") ↔
      ((63922503630 : Int) + 86400 - 60 ≤ 63922590000 ∧
       (63922590000 : Int) ≤ 63922503630 + 86400 + 60 ∧ false = false)) ∧
     ((∃ row ∈ get_pending_reminders 63922503630
        ⟨[⟨1, "C", none, none, none⟩],
         [⟨10, 1, "A", none, none, none, false, false, false, false⟩],
         [⟨"u", 1, 10, 63922590000, none, false, false, false⟩], []⟩,
        row.user_id = "u" ∧ row.course_id = 1 ∧ row.assignment_id = 10 ∧
        row.tag = "1h") ↔
      ((63922503630 : Int) + 3600 - 60 ≤ 63922590000 ∧
       (63922590000 : Int) ≤ 63922503630 + 3600 + 60 ∧ false = false)) ∧
     ((∃ row ∈ get_pending_reminders 63922503630
        ⟨[⟨1, "C", none, none, none⟩],
         [⟨10, 1, "A", none, none, none, false, false, false, false⟩],
         [⟨"u", 1, 10, 63922590000, none, false, false, false⟩], []⟩,
        row.user_id = "u" ∧ row.course_id = 1 ∧ row.assignment_id = 10 ∧
        row.tag = "now") ↔
      ((63922503630 : Int) - 60 ≤ 63922590000 ∧
       (63922590000 : Int) ≤ 63922503630 + 60 ∧ false = false))) ∧
    ((∃ row ∈ get_pending_reminders 63922510830
        (update_study_plan_time "u" 1 10 63922597200
          ⟨[⟨1, "C", none, none, none⟩],
           [⟨10, 1, "A", none, none, none, false, false, false, false⟩],
           [⟨"u", 1, 10, 63922590000, none, true, true, true⟩], []⟩),
        row.user_id = "u" ∧ row.course_id = 1 ∧ row.assignment_id = 10 ∧
        row.tag = "24h") ↔
      ((63922510830 : Int) + 86400 - 60 ≤ 63922597200 ∧
       (63922597200 : Int) ≤ 63922510830 + 86400 + 60)) :=
  ⟨work_reminder_window_selection.1
      ⟨[⟨1, "C", none, none, none⟩],
       [⟨10, 1, "A", none, none, none, false, false, false, false⟩],
       [⟨"u", 1, 10, 63922590000, none, false, false, false⟩], []⟩
      63922503630 ⟨"u", 1, 10, 63922590000, none, false, false, false⟩
      ⟨10, 1, "A", none, none, none, false, false, false, false⟩
      ⟨1, "C", none, none, none⟩ (by decide) (by decide) (by decide) (by decide),
   work_reminder_window_selection.2 "u" 1 10 63922597200
      ⟨[⟨1, "C", none, none, none⟩],
       [⟨10, 1, "A", none, none, none, false, false, false, false⟩],
       [⟨"u", 1, 10, 63922590000, none, true, true, true⟩], []⟩
      63922510830 ⟨"u", 1, 10, 63922590000, none, true, true, true⟩
      ⟨10, 1, "A", none, none, none, false, false, false, false⟩
      ⟨1, "C", none, none, none⟩ (by decide) (by decide) (by decide) (by decide)
      (by decide)⟩

theorem length_filter_subpred_le {α : Type} (l : List α) (p q : α → Bool) :
    (l.filter (fun x => p x && q x)).length ≤ (l.filter p).length := by
  induction l with
  | nil => simp
  | cons x xs ih =>
    simp only [List.filter_cons]
    cases hp : p x <;> cases hq : q x <;> simp [hp, hq] <;> omega

/-- Claim C7: `check_week_completion` returns `(true, 0, 0)` for an empty
week, counts assignments due in the week regardless of user (`total`) and
the ones this user completed (`completedCount`, never exceeding total),
and reports all-complete exactly when the two counts agree (vacuously at
zero). -/
theorem week_completion_correct (u : String) (s : Int) (db : DB) :
    (check_week_completion u s db).2.1 =
      (db.assignments.filter
        (dueInRange s (s + (6 * 86400 + (23 * 3600 + 59 * 60 + 59))))).length ∧
    (check_week_completion u s db).2.2 =
      (db.assignments.filter (fun a =>
        dueInRange s (s + (6 * 86400 + (23 * 3600 + 59 * 60 + 59))) a &&
        db.user_status.any (fun r => uasKeyMatch u a.course_id a.id r &&
          r.completed))).length ∧
    (check_week_completion u s db).2.2 ≤ (check_week_completion u s db).2.1 ∧
    ((check_week_completion u s db).1 = true ↔
      (check_week_completion u s db).2.2 = (check_week_completion u s db).2.1) ∧
    ((check_week_completion u s db).2.1 = 0 →
      check_week_completion u s db = (true, 0, 0)) ∧
    ((check_week_completion u s db).2.2 < (check_week_completion u s db).2.1 →
      (check_week_completion u s db).1 = false) := by
  have hle := length_filter_subpred_le db.assignments
    (dueInRange s (s + (6 * 86400 + (23 * 3600 + 59 * 60 + 59))))
    (fun a => db.user_status.any (fun r => uasKeyMatch u a.course_id a.id r &&
      r.completed))
  simp only [check_week_completion]
  by_cases hN : (db.assignments.filter
      (dueInRange s (s + (6 * 86400 + (23 * 3600 + 59 * 60 + 59))))).length = 0
  · rw [if_pos hN]
    dsimp only
    refine ⟨hN.symm, by omega, by omega, by simp, fun _ => rfl, ?_⟩
    intro h
    simp at h
  · rw [if_neg hN]
    dsimp only
    refine ⟨rfl, rfl, hle, ?_, fun h => absurd h hN, ?_⟩
    · constructor
      · intro h
        exact beq_iff_eq.mp h
      · intro h
        exact beq_iff_eq.mpr h
    · intro hlt
      have hne : (db.assignments.filter (fun a =>
          dueInRange s (s + (6 * 86400 + (23 * 3600 + 59 * 60 + 59))) a &&
          db.user_status.any (fun r => uasKeyMatch u a.course_id a.id r &&
            r.completed))).length ≠
          (db.assignments.filter
            (dueInRange s (s + (6 * 86400 + (23 * 3600 + 59 * 60 + 59))))).length := by
        omega
      exact beq_eq_false_iff_ne.mpr hne

theorem applyAssignmentRow_frame (cid : Int) (r : CanvasAssignmentRow)
    (due week : Option Int) (db : DB) (x : Assignment)
    (hx : x ∈ db.assignments) :
    ∃ x' ∈ (applyAssignmentRow cid r due week db).assignments,
      x'.course_id = x.course_id ∧ x'.id = x.id ∧
      x'.due_reminder_2d_sent = x.due_reminder_2d_sent ∧
      x'.due_reminder_1d_sent = x.due_reminder_1d_sent ∧
      x'.due_reminder_12h_sent = x.due_reminder_12h_sent := by
  simp only [applyAssignmentRow]
  by_cases hc : db.assignments.any (asgKeyMatch cid r.id)
  · rw [if_pos hc]
    dsimp only
    refine ⟨_, List.mem_map_of_mem _ hx, ?_⟩
    dsimp only
    by_cases hk : asgKeyMatch cid r.id x
    · rw [if_pos hk]
      exact ⟨rfl, rfl, rfl, rfl, rfl⟩
    · rw [if_neg hk]
      exact ⟨rfl, rfl, rfl, rfl, rfl⟩
  · rw [if_neg hc]
    dsimp only
    exact ⟨x, List.mem_append_left _ hx, rfl, rfl, rfl, rfl, rfl⟩

theorem upsert_assignments_frame_aux :
    ∀ (rows : List CanvasAssignmentRow) (cid tz : Int) (db db' : DB),
      upsert_assignments rows cid tz db = some db' →
      ∀ x ∈ db.assignments, ∃ x' ∈ db'.assignments,
        x'.course_id = x.course_id ∧ x'.id = x.id ∧
        x'.due_reminder_2d_sent = x.due_reminder_2d_sent ∧
        x'.due_reminder_1d_sent = x.due_reminder_1d_sent ∧
        x'.due_reminder_12h_sent = x.due_reminder_12h_sent := by
  intro rows
  induction rows with
  | nil =>
    intro cid tz db db' h x hx
    simp only [upsert_assignments, Option.some.injEq] at h
    subst h
    exact ⟨x, hx, rfl, rfl, rfl, rfl, rfl⟩
  | cons r rest ih =>
    intro cid tz db db' h x hx
    simp only [upsert_assignments] at h
    cases hdue : r.due_at with
    | none =>
      rw [hdue] at h
      dsimp only at h
      obtain ⟨x1, hx1, k1, k2, k3, k4, k5⟩ :=
        applyAssignmentRow_frame cid r none none db x hx
      obtain ⟨x2, hx2, m1, m2, m3, m4, m5⟩ := ih cid tz _ db' h x1 hx1
      exact ⟨x2, hx2, m1.trans k1, m2.trans k2, m3.trans k3, m4.trans k4,
        m5.trans k5⟩
    | some raw =>
      rw [hdue] at h
      dsimp only at h
      cases hp : parse_canvas_datetime raw with
      | none =>
        rw [hp] at h
        simp at h
      | some dt =>
        rw [hp] at h
        dsimp only at h
        cases hts : to_utc_sec dt tz with
        | none =>
          rw [hts] at h
          simp at h
        | some ts =>
          rw [hts] at h
          dsimp only at h
          obtain ⟨x1, hx1, k1, k2, k3, k4, k5⟩ :=
            applyAssignmentRow_frame cid r (some ts) (some (isoWeek dt)) db x hx
          obtain ⟨x2, hx2, m1, m2, m3, m4, m5⟩ := ih cid tz _ db' h x1 hx1
          exact ⟨x2, hx2, m1.trans k1, m2.trans k2, m3.trans k3, m4.trans k4,
            m5.trans k5⟩

theorem applyAssignmentRow_conflict (cid : Int) (r : CanvasAssignmentRow)
    (due week : Option Int) (db : DB) (x : Assignment)
    (hx : x ∈ db.assignments) (hk : asgKeyMatch cid r.id x = true) :
    ({ x with name := r.name, due_at := due, week_number := week,
              html_url := r.html_url,
              submitted := r.has_submitted_submissions })
      ∈ (applyAssignmentRow cid r due week db).assignments := by
  simp only [applyAssignmentRow]
  rw [if_pos (List.any_eq_true.mpr ⟨x, hx, hk⟩)]
  dsimp only
  have hmap := List.mem_map_of_mem (fun y =>
    if asgKeyMatch cid r.id y then
      { y with name := r.name, due_at := due, week_number := week,
               html_url := r.html_url,
               submitted := r.has_submitted_submissions }
    else y) hx
  dsimp only at hmap
  rw [if_pos hk] at hmap
  exact hmap

/-- Claim C6: on re-upsert of an existing (course_id, id) key, all
non-flag attributes (name, due_at, week_number, html_url, submitted) are
overwritten while the three due-reminder-sent flags keep whatever values
they held; the flags of every pre-existing assignment survive any
`upsert_assignments` call unchanged. -/
theorem upsert_assignments_conflict_semantics :
    (∀ (rows : List CanvasAssignmentRow) (cid tz : Int) (db db' : DB),
      upsert_assignments rows cid tz db = some db' →
      ∀ x ∈ db.assignments, ∃ x' ∈ db'.assignments,
        x'.course_id = x.course_id ∧ x'.id = x.id ∧
        x'.due_reminder_2d_sent = x.due_reminder_2d_sent ∧
        x'.due_reminder_1d_sent = x.due_reminder_1d_sent ∧
        x'.due_reminder_12h_sent = x.due_reminder_12h_sent) ∧
    (∀ (r : CanvasAssignmentRow) (cid tz : Int) (db db' : DB) (x : Assignment),
      upsert_assignments [r] cid tz db = some db' →
      x ∈ db.assignments → asgKeyMatch cid r.id x = true →
      ∃ due week,
        ({ x with name := r.name, due_at := due, week_number := week,
                  html_url := r.html_url,
                  submitted := r.has_submitted_submissions }) ∈ db'.assignments ∧
        ((r.due_at = none ∧ due = none ∧ week = none) ∨
         (∃ raw dt ts, r.due_at = some raw ∧
           parse_canvas_datetime raw = some dt ∧ to_utc_sec dt tz = some ts ∧
           due = some ts ∧ week = some (isoWeek dt)))) := by
  constructor
  · exact upsert_assignments_frame_aux
  · intro r cid tz db db' x h hx hk
    simp only [upsert_assignments] at h
    cases hdue : r.due_at with
    | none =>
      rw [hdue] at h
      dsimp only at h
      simp only [Option.some.injEq] at h
      subst h
      exact ⟨none, none, applyAssignmentRow_conflict cid r none none db x hx hk,
        Or.inl ⟨rfl, rfl, rfl⟩⟩
    | some raw =>
      rw [hdue] at h
      dsimp only at h
      cases hp : parse_canvas_datetime raw with
      | none =>
        rw [hp] at h
        simp at h
      | some dt =>
        rw [hp] at h
        dsimp only at h
        cases hts : to_utc_sec dt tz with
        | none =>
          rw [hts] at h
          simp at h
        | some ts =>
          rw [hts] at h
          dsimp only at h
          simp only [Option.some.injEq] at h
          subst h
          exact ⟨some ts, some (isoWeek dt),
            applyAssignmentRow_conflict cid r (some ts) (some (isoWeek dt)) db x
              hx hk,
            Or.inr ⟨raw, dt, ts, rfl, hp, hts, rfl, rfl⟩⟩

theorem upsert_assignments_conflict_semantics_witness :
    (∃ x' ∈ (⟨[⟨1, "C", none, none, none⟩],
        [⟨10, 1, "New", some 63928310340, some 51, some "http", true,
          true, false, true⟩], [], []⟩ : DB).assignments,
      x'.course_id = 1 ∧ x'.id = 10 ∧ x'.due_reminder_2d_sent = true ∧
      x'.due_reminder_1d_sent = false ∧ x'.due_reminder_12h_sent = true) ∧
    (∃ due week,
      (⟨10, 1, "New", due, week, some "http", true, true, false, true⟩ :
          Assignment) ∈
        (⟨[⟨1, "C", none, none, none⟩],
          [⟨10, 1, "New", some 63928310340, some 51, some "http", true,
            true, false, true⟩], [], []⟩ : DB).assignments ∧
      (((some "2025-12-20T23:59:00Z" : Option String) = none ∧ due = none ∧
          week = none) ∨
       (∃ raw dt ts, (some "2025-12-20T23:59:00Z" : Option String) = some raw ∧
         parse_canvas_datetime raw = some dt ∧ to_utc_sec dt 0 = some ts ∧
         due = some ts ∧ week = some (isoWeek dt)))) :=
  ⟨upsert_assignments_conflict_semantics.1
      [⟨10, "New", some "2025-12-20T23:59:00Z", some "http", true⟩] 1 0
      ⟨[⟨1, "C", none, none, none⟩],
       [⟨10, 1, "Old", some 999, some 5, some "old", false, true, false, true⟩],
       [], []⟩
      ⟨[⟨1, "C", none, none, none⟩],
       [⟨10, 1, "New", some 63928310340, some 51, some "http", true,
         true, false, true⟩], [], []⟩
      (by decide)
      ⟨10, 1, "Old", some 999, some 5, some "old", false, true, false, true⟩
      (by decide),
   upsert_assignments_conflict_semantics.2
      ⟨10, "New", some "2025-12-20T23:59:00Z", some "http", true⟩ 1 0
      ⟨[⟨1, "C", none, none, none⟩],
       [⟨10, 1, "Old", some 999, some 5, some "old", false, true, false, true⟩],
       [], []⟩
      ⟨[⟨1, "C", none, none, none⟩],
       [⟨10, 1, "New", some 63928310340, some 51, some "http", true,
         true, false, true⟩], [], []⟩
      ⟨10, 1, "Old", some 999, some 5, some "old", false, true, false, true⟩
      (by decide) (by decide) (by decide)⟩

theorem dueRowFor_some_shape (db : DB) (u : String) (lo hi ws we : Int)
    (flag : Assignment → Bool) (tag : String) (a : Assignment)
    (b : DueReminderRow) (h : dueRowFor db u lo hi ws we flag tag a = some b) :
    b.course_id = a.course_id ∧ b.assignment_id = a.id ∧ b.tag = tag ∧
    flag a = false ∧ uasCompleted db u a.course_id a.id = false ∧
    ∃ d, a.due_at = some d ∧ b.due_at = d ∧ (lo ≤ d ∧ d ≤ hi) ∧
      (ws ≤ d ∧ d ≤ we) := by
  simp only [dueRowFor] at h
  cases hdue : a.due_at with
  | none =>
    rw [hdue] at h
    simp at h
  | some d =>
    rw [hdue] at h
    dsimp only at h
    by_cases hcond : (lo ≤ d ∧ d ≤ hi) ∧ (ws ≤ d ∧ d ≤ we) ∧ flag a = false ∧
        uasCompleted db u a.course_id a.id = false
    · rw [if_pos hcond] at h
      cases hfc : findCourse db a.course_id with
      | none =>
        rw [hfc] at h
        simp at h
      | some c =>
        rw [hfc] at h
        simp only [Option.some.injEq] at h
        subst h
        exact ⟨rfl, rfl, rfl, hcond.2.2.1, hcond.2.2.2, d, rfl, rfl, hcond.1,
          hcond.2.1⟩
    · rw [if_neg hcond] at h
      simp at h

theorem filterMap_filter_length_zero {α β : Type} (l : List α)
    (f : α → Option β) (p : β → Bool)
    (h : ∀ y ∈ l, ∀ b, f y = some b → p b = true → False) :
    ((l.filterMap f).filter p).length = 0 := by
  induction l with
  | nil => rfl
  | cons y ys ih =>
    simp only [List.filterMap_cons]
    cases hf : f y with
    | none => exact ih (fun z hz b hb hpb => h z (List.mem_cons_of_mem _ hz) b hb hpb)
    | some b =>
      simp only [List.filter_cons]
      have hpb : p b = false := by
        cases hpb : p b
        · rfl
        · exact absurd (h y (List.mem_cons_self _ _) b hf hpb) not_false
      rw [hpb]
      simp only [Bool.false_eq_true, if_false]
      exact ih (fun z hz b' hb' hpb' => h z (List.mem_cons_of_mem _ hz) b' hb' hpb')

theorem filterMap_filter_length_one {α β : Type} [DecidableEq α] (l : List α)
    (f : α → Option β) (p : β → Bool) (x : α) (b : β) (hx : x ∈ l)
    (hfx : f x = some b) (hpb : p b = true)
    (huniq : ∀ y ∈ l, ∀ b', f y = some b' → p b' = true → y = x)
    (hnodup : l.Nodup) :
    ((l.filterMap f).filter p).length = 1 := by
  induction l with
  | nil => cases hx
  | cons y ys ih =>
    by_cases hyx : y = x
    · subst hyx
      simp only [List.filterMap_cons, hfx, List.filter_cons, hpb, if_true]
      have hzero : ((ys.filterMap f).filter p).length = 0 := by
        apply filterMap_filter_length_zero
        intro z hz b' hb' hpb'
        have hzx := huniq z (List.mem_cons_of_mem _ hz) b' hb' hpb'
        subst hzx
        exact absurd hz (List.nodup_cons.mp hnodup).1
      simp [hzero]
    · have hxys : x ∈ ys := by
        cases hx with
        | head => exact absurd rfl hyx
        | tail _ h => exact h
      have hrest : ((ys.filterMap f).filter p).length = 1 :=
        ih hxys (fun z hz b' hb' hpb' => huniq z (List.mem_cons_of_mem _ hz) b' hb' hpb')
          (List.Nodup.of_cons hnodup)
      simp only [List.filterMap_cons]
      cases hf : f y with
      | none => exact hrest
      | some b' =>
        have hpb' : p b' = false := by
          cases hp2 : p b'
          · rfl
          · exact absurd (huniq y (List.mem_cons_self _ _) b' hf hp2) hyx
        simp only [List.filter_cons, hpb', Bool.false_eq_true, if_false]
        exact hrest

/-- Primary-key uniqueness of `assignments` ((course_id, id)), as enforced
by SQLite. -/
def asgKeyUnique (db : DB) : Prop :=
  db.assignments.Pairwise (fun a b => ¬(a.course_id = b.course_id ∧ a.id = b.id))

instance (db : DB) : Decidable (asgKeyUnique db) := by
  unfold asgKeyUnique
  infer_instance

theorem asg_key_eq (db : DB) (h : asgKeyUnique db) {a1 a2 : Assignment}
    (h1 : a1 ∈ db.assignments) (h2 : a2 ∈ db.assignments)
    (hc : a1.course_id = a2.course_id) (hi : a1.id = a2.id) : a1 = a2 := by
  by_contra hne
  have hsym : Symmetric (fun a b : Assignment =>
      ¬(a.course_id = b.course_id ∧ a.id = b.id)) := by
    intro p q hpq hk
    exact hpq ⟨hk.1.symm, hk.2.symm⟩
  exact (List.Pairwise.forall hsym h h1 h2 hne) ⟨hc, hi⟩

theorem asg_nodup (db : DB) (h : asgKeyUnique db) : db.assignments.Nodup := by
  refine List.Pairwise.imp ?_ h
  intro a b hab heq
  exact hab (by rw [heq]; exact ⟨rfl, rfl⟩)

theorem tag_of_mem_duePendingFor (db : DB) (u : String) (lo hi ws we : Int)
    (flag : Assignment → Bool) (tag : String) (row : DueReminderRow)
    (h : row ∈ duePendingFor db u lo hi ws we flag tag) : row.tag = tag := by
  simp only [duePendingFor, List.mem_filterMap] at h
  obtain ⟨a, _, hf⟩ := h
  exact (dueRowFor_some_shape db u lo hi ws we flag tag a row hf).2.2.1

/-- Claim C2: an assignment due at `D`, with its 2d flag unsent, due in
the current display week, yields exactly one `'2d'`-tagged reminder at
`now = D - 2 days` for any user who has not completed it; after
`mark_due_date_reminder_sent`, an identical tick at `now + 30s` yields no
`'2d'` reminder for that assignment. -/
theorem due_reminder_2d_exactly_once
    (db : DB) (tz : Int) (u : String) (x : Assignment) (D : Int) (c : Course)
    (hUniq : asgKeyUnique db) (hx : x ∈ db.assignments)
    (hdue : x.due_at = some D) (hflag : x.due_reminder_2d_sent = false)
    (hfc : findCourse db x.course_id = some c)
    (hw1 : (dueWeekWindow (D - 2 * 86400) tz).1 ≤ D)
    (hw2 : D ≤ (dueWeekWindow (D - 2 * 86400) tz).2)
    (hnc : uasCompleted db u x.course_id x.id = false) :
    ((get_pending_due_date_reminders (D - 2 * 86400) u tz db).filter
        (fun row => row.tag == "2d" && row.course_id == x.course_id &&
          row.assignment_id == x.id)).length = 1 ∧
    (∀ row ∈ get_pending_due_date_reminders (D - 2 * 86400 + 30) u tz
        (mark_due_date_reminder_sent x.course_id x.id "2d" db),
      ¬(row.tag = "2d" ∧ row.course_id = x.course_id ∧
        row.assignment_id = x.id)) := by
  constructor
  · simp only [get_pending_due_date_reminders, duePendingFor]
    rw [List.filter_append, List.filter_append, List.length_append,
      List.length_append]
    have hz1 : ((db.assignments.filterMap (dueRowFor db u
        ((D - 2 * 86400) + 86400 - 60) ((D - 2 * 86400) + 86400 + 60)
        (dueWeekWindow (D - 2 * 86400) tz).1 (dueWeekWindow (D - 2 * 86400) tz).2
        (fun a => a.due_reminder_1d_sent) "1d")).filter
        (fun row => row.tag == "2d" && row.course_id == x.course_id &&
          row.assignment_id == x.id)).length = 0 := by
      apply filterMap_filter_length_zero
      intro y _ b hb hpb
      have hshape := dueRowFor_some_shape _ _ _ _ _ _ _ _ _ _ hb
      simp only [Bool.and_eq_true, beq_iff_eq] at hpb
      rw [hshape.2.2.1] at hpb
      exact absurd hpb.1.1 (by decide)
    have hz2 : ((db.assignments.filterMap (dueRowFor db u
        ((D - 2 * 86400) + 12 * 3600 - 60) ((D - 2 * 86400) + 12 * 3600 + 60)
        (dueWeekWindow (D - 2 * 86400) tz).1 (dueWeekWindow (D - 2 * 86400) tz).2
        (fun a => a.due_reminder_12h_sent) "12h")).filter
        (fun row => row.tag == "2d" && row.course_id == x.course_id &&
          row.assignment_id == x.id)).length = 0 := by
      apply filterMap_filter_length_zero
      intro y _ b hb hpb
      have hshape := dueRowFor_some_shape _ _ _ _ _ _ _ _ _ _ hb
      simp only [Bool.and_eq_true, beq_iff_eq] at hpb
      rw [hshape.2.2.1] at hpb
      exact absurd hpb.1.1 (by decide)
    have hone : ((db.assignments.filterMap (dueRowFor db u
        ((D - 2 * 86400) + 2 * 86400 - 60) ((D - 2 * 86400) + 2 * 86400 + 60)
        (dueWeekWindow (D - 2 * 86400) tz).1 (dueWeekWindow (D - 2 * 86400) tz).2
        (fun a => a.due_reminder_2d_sent) "2d")).filter
        (fun row => row.tag == "2d" && row.course_id == x.course_id &&
          row.assignment_id == x.id)).length = 1 := by
      apply filterMap_filter_length_one db.assignments _ _ x
        ⟨x.id, x.course_id, x.name, D, c.course_code, c.name, "2d"⟩ hx
      · simp only [dueRowFor, hdue]
        dsimp only
        rw [if_pos ⟨⟨by omega, by omega⟩, ⟨hw1, hw2⟩, hflag, hnc⟩, hfc]
      · simp
      · intro y hy b' hb' hpb'
        have hshape := dueRowFor_some_shape _ _ _ _ _ _ _ _ _ _ hb'
        simp only [Bool.and_eq_true, beq_iff_eq] at hpb'
        have hyc : y.course_id = x.course_id := by
          rw [← hshape.1]
          exact hpb'.1.2
        have hyi : y.id = x.id := by
          rw [← hshape.2.1]
          exact hpb'.2
        exact asg_key_eq db hUniq hy hx hyc hyi
      · exact asg_nodup db hUniq
    omega
  · intro row hrow hconj
    obtain ⟨ht, hc2, ha2⟩ := hconj
    have hflagged : ∀ a' ∈ (mark_due_date_reminder_sent x.course_id x.id "2d"
        db).assignments, a'.course_id = x.course_id → a'.id = x.id →
        a'.due_reminder_2d_sent = true := by
      intro a' ha' e1 e2
      simp only [mark_due_date_reminder_sent] at ha'
      rw [if_pos (by decide : (("2d" : String) == "2d") = true)] at ha'
      dsimp only at ha'
      obtain ⟨a0, ha0, hfa0⟩ := List.mem_map.mp ha'
      by_cases hk : asgKeyMatch x.course_id x.id a0
      · rw [if_pos hk] at hfa0
        rw [← hfa0]
      · rw [if_neg hk] at hfa0
        subst hfa0
        simp only [asgKeyMatch, Bool.and_eq_true, beq_iff_eq] at hk
        exact absurd ⟨e1, e2⟩ hk
    simp only [get_pending_due_date_reminders, List.mem_append] at hrow
    rcases hrow with (h | h) | h
    · rw [mem_duePendingFor] at h
      obtain ⟨a', ha', d, c', _, _, _, _, hfl, _, hroweq⟩ := h
      rw [hroweq] at hc2 ha2
      dsimp only at hc2 ha2
      rw [hflagged a' ha' hc2 ha2] at hfl
      exact absurd hfl (by decide)
    · rw [tag_of_mem_duePendingFor _ _ _ _ _ _ _ _ _ h] at ht
      exact absurd ht (by decide)
    · rw [tag_of_mem_duePendingFor _ _ _ _ _ _ _ _ _ h] at ht
      exact absurd ht (by decide)

theorem due_reminder_2d_exactly_once_witness :
    ((get_pending_due_date_reminders 63928137540 "u" 0
        ⟨[⟨1, "C", none, none, none⟩],
         [⟨10, 1, "A", some 63928310340, some 51, none, false, false, false,
           false⟩], [], []⟩).filter
        (fun row => row.tag == "2d" && row.course_id == 1 &&
          row.assignment_id == 10)).length = 1 ∧
    (∀ row ∈ get_pending_due_date_reminders (63928137540 + 30) "u" 0
        (mark_due_date_reminder_sent 1 10 "2d"
          ⟨[⟨1, "C", none, none, none⟩],
           [⟨10, 1, "A", some 63928310340, some 51, none, false, false, false,
             false⟩], [], []⟩),
      ¬(row.tag = "2d" ∧ row.course_id = 1 ∧ row.assignment_id = 10)) :=
  due_reminder_2d_exactly_once
    ⟨[⟨1, "C", none, none, none⟩],
     [⟨10, 1, "A", some 63928310340, some 51, none, false, false, false,
       false⟩], [], []⟩
    0 "u" ⟨10, 1, "A", some 63928310340, some 51, none, false, false, false,
      false⟩ 63928310340 ⟨1, "C", none, none, none⟩
    (by decide) (by decide) rfl rfl (by decide) (by decide) (by decide) rfl

theorem completed_user_excluded_witness :
    ¬((⟨10, 1, "A", 604800, none, "C", "2d"⟩ : DueReminderRow).course_id = 1 ∧
      (⟨10, 1, "A", 604800, none, "C", "2d"⟩ : DueReminderRow).assignment_id = 20) :=
  completed_user_excluded "u" 1 20 (some 0)
    ⟨[⟨1, "C", none, none, none⟩],
     [⟨10, 1, "A", some 604800, none, none, false, false, false, false⟩],
     [], []⟩ 432000 0
    ⟨10, 1, "A", 604800, none, "C", "2d"⟩ (by decide)

/-- `DAY_NAME_MAP` from constants.py, applied to the lowercased day word. -/
def dayNameMap (s : String) : Option Nat :=
  match s with
  | "mon" => some 0 | "monday" => some 0
  | "tue" => some 1 | "tues" => some 1 | "tuesday" => some 1
  | "wed" => some 2 | "wednesday" => some 2
  | "thu" => some 3 | "thurs" => some 3 | "thursday" => some 3
  | "fri" => some 4 | "friday" => some 4
  | "sat" => some 5 | "saturday" => some 5
  | "sun" => some 6 | "sunday" => some 6
  | _ => none

/-- Python regex `\s` over the ASCII range. -/
def isPySpace (c : Char) : Bool :=
  c == ' ' || c == '\t' || c == '\n' || c == '\r' || c == '\x0b' || c == '\x0c'

def isAsciiLetter (c : Char) : Bool :=
  ('A' ≤ c && c ≤ 'Z') || ('a' ≤ c && c ≤ 'z')

def isDigitCh (c : Char) : Bool := '0' ≤ c && c ≤ '9'

def dval (c : Char) : Nat := c.toNat - 48

/-- The regex `^\s*([A-Za-z]+)\s+(\d{1,2}):(\d{2})\s*([AaPp][Mm])\s*$`:
returns the day word, hour value, minute value and the AM/PM flag.  The
greedy 1-2 digit hour group is equivalent to taking the maximal digit run
and requiring its length to be 1 or 2 followed by `':'`. -/
def matchDayTime (cs : List Char) : Option (List Char × Nat × Nat × Bool) :=
  let cs1 := cs.dropWhile isPySpace
  let day := cs1.takeWhile isAsciiLetter
  let rest1 := cs1.dropWhile isAsciiLetter
  if day.isEmpty then none
  else
    match rest1 with
    | [] => none
    | c1 :: _ =>
      if ! isPySpace c1 then none
      else
        let rest2 := rest1.dropWhile isPySpace
        let hs := rest2.takeWhile isDigitCh
        let rest3 := rest2.dropWhile isDigitCh
        if hs.length = 0 || 2 < hs.length then none
        else
          match rest3 with
          | ':' :: d1 :: d2 :: rest5 =>
            if isDigitCh d1 && isDigitCh d2 then
              match rest5.dropWhile isPySpace with
              | a :: m :: rest7 =>
                if (a == 'A' || a == 'a' || a == 'P' || a == 'p') &&
                    (m == 'M' || m == 'm') &&
                    (rest7.dropWhile isPySpace).isEmpty then
                  some (day, hs.foldl (fun acc c => 10 * acc + dval c) 0,
                        10 * dval d1 + dval d2, a == 'P' || a == 'p')
                else none
              | _ => none
            else none
          | _ => none

/-- Outcome of `parse_day_time_input`: a canonical timestamp, `None` (the
regex or day lookup failed), or an uncaught `ValueError`/`OverflowError`
escaping the function. -/
inductive DayTimeParse where
  | ok (ts : String)
  | invalid
  | valueError
deriving Repr, DecidableEq

/-- `parse_day_time_input(input_str, week_monday)` (bot.py): regex match,
day lookup, 12-hour conversion, `week_monday + timedelta(days=day_idx)`,
`.replace(hour=hour, minute=minute, second=0, microsecond=0)` (which
raises ValueError for minute ≥ 60), attach the display timezone, then
`to_utc_iso_z`. -/
def parse_day_time_input (input : String) (week_monday : PyDateTime)
    (tzOff : Int) : DayTimeParse :=
  match matchDayTime input.data with
  | none => .invalid
  | some (day, hh, mm, isPM) =>
    match dayNameMap ⟨day.map Char.toLower⟩ with
    | none => .invalid
    | some dayIdx =>
      let hour := hh % 12 + (if isPM then 12 else 0)
      let sd := sdays week_monday.year week_monday.month week_monday.day + dayIdx
      if sd ≤ MAXSDAY then
        if hour ≤ 23 && mm ≤ 59 then
          match to_utc_iso_z ⟨(sdaysToDate sd).1, (sdaysToDate sd).2.1,
              (sdaysToDate sd).2.2, hour, mm, 0, 0, some tzOff⟩ tzOff with
          | some s => .ok s
          | none => .valueError
        else .valueError
      else .valueError

/-- Claim C9 (code bug): parsing `"Wed 7:30 PM"` against the Monday
2025-10-13 yields the canonical timestamp of that Wednesday 19:30 in the
display timezone, and `"Caturday 7:30 PM"` fails with no result; but
`"Wed 25:99 PM"` matches the regex (hour 25 % 12 + 12 = 13, minute 99)
and then `datetime.replace(minute=99)` raises an uncaught ValueError
instead of returning the documented error outcome. -/
theorem parse_day_time_input_eval :
    parse_day_time_input "Wed 7:30 PM" ⟨2025, 10, 13, 0, 0, 0, 0, none⟩ 0 =
      DayTimeParse.ok "2025-10-15T19:30:00Z" ∧
    parse_day_time_input "Caturday 7:30 PM" ⟨2025, 10, 13, 0, 0, 0, 0, none⟩ 0 =
      DayTimeParse.invalid ∧
    parse_day_time_input "Wed 25:99 PM" ⟨2025, 10, 13, 0, 0, 0, 0, none⟩ 0 =
      DayTimeParse.valueError := by
  refine ⟨?_, ?_, ?_⟩ <;> decide
